import Mathlib

/-!
Verification development for the `portainer-bookmarks` repository
(`docker/bookmarks_importer.py`, `docker/bookmarks_manager.py`).

The Python source is shallowly embedded below: pure string functions become
Lean functions on `String`/`List Char`, the filesystem becomes an explicit
`FS` state threaded through the writer and importer loops, and library calls
that the repository merely invokes (`json.loads`, `datetime.strftime`,
`os.walk` enumeration order, the network) are modelled by executable Lean
stand-ins or by explicitly quantified environment parameters.
-/

namespace Bookmarks

/-! ## Character and string utilities shared by the embedding -/

/-- Python ASCII whitespace, as stripped by `str.strip()` (the Unicode
whitespace code points additionally stripped by Python are irrelevant here:
every one of them is later replaced by a hyphen and trimmed, so the embedded
slug pipeline agrees with the source on all inputs). -/
def isPyWs (c : Char) : Bool :=
  c = ' ' || c = '\t' || c = '\n' || c = '\r' || c = '\x0b' || c = '\x0c'

/-- Drop a maximal trailing run of characters satisfying `p`. -/
def dropTrailing (p : Char → Bool) : List Char → List Char
  | [] => []
  | c :: rest =>
    match dropTrailing p rest with
    | [] => if p c then [] else [c]
    | r => c :: r

/-- Python's two-sided strip against the character class `p`
(`str.strip()` / `str.strip('-')`). -/
def pyTrim (p : Char → Bool) (l : List Char) : List Char :=
  dropTrailing p (l.dropWhile p)

/-- `str.strip()` on a character list. -/
def stripWs (l : List Char) : List Char := pyTrim isPyWs l

/-- `str.strip()` on a `String`. -/
def pyStrip (s : String) : String := String.mk (stripWs s.data)

/-- `str.lower()` (ASCII case mapping; non-ASCII letters are replaced by a
hyphen by every consumer below, so the difference from Python's Unicode
lowercasing is unobservable in the embedded functions). -/
def lowerStr (s : String) : String := String.mk (s.data.map Char.toLower)

/-- Characters kept by the importer's slug regex `[a-z0-9]`. -/
def isLowerAlnum (c : Char) : Bool :=
  ('a' ≤ c && c ≤ 'z') || ('0' ≤ c && c ≤ '9')

/-- Characters surviving the slug substitution step: `[a-z0-9-]`. -/
def isSlugChar (c : Char) : Bool := isLowerAlnum c || c = '-'

/-- `re.sub(r'-+', '-', text)`: collapse each run of hyphens to a single
hyphen. -/
def squeezeHyphens : List Char → List Char
  | [] => []
  | [c] => [c]
  | c :: d :: rest =>
    if c = '-' ∧ d = '-' then squeezeHyphens (d :: rest)
    else c :: squeezeHyphens (d :: rest)

/-- `text.strip('-')`. -/
def stripHyphens (l : List Char) : List Char := pyTrim (· = '-') l

/-! ## The importer's slug function (`BookmarksImporter.slugify`) -/

/-- Core of `BookmarksImporter.slugify` on a character list: lower-case,
strip whitespace, replace every character outside `[a-z0-9-]` by `-`,
collapse hyphen runs, strip end hyphens. -/
def slugifyCore (l : List Char) : List Char :=
  stripHyphens (squeezeHyphens
    ((stripWs (l.map Char.toLower)).map (fun c => if isSlugChar c then c else '-')))

/-- `BookmarksImporter.slugify` (bookmarks_importer.py, lines 28-42). -/
def slugify (s : String) : String :=
  if s = "" then "" else String.mk (slugifyCore s.data)

/-! ## The manager's slug function (`BookmarksManager.slugify`)

The manager version first applies `unicodedata.normalize('NFKD', text)
.encode('ascii','ignore').decode('ascii')` — an external library transform.
It is taken as an explicit function parameter `fold`; the only property the
theorems assume about it is the true fact that it is the identity on ASCII
input. -/

/-- Core of `BookmarksManager.slugify` (bookmarks_manager.py, lines 36-51):
ASCII-fold, lower-case, replace every character outside `[a-zA-Z0-9]` by
`-`, collapse hyphen runs, strip end hyphens.  After ASCII lower-casing no
upper-case letter survives, so the kept class coincides with `[a-z0-9]`. -/
def slugifyMCore (fold : List Char → List Char) (l : List Char) : List Char :=
  stripHyphens (squeezeHyphens
    (((fold l).map Char.toLower).map
      (fun c => if isLowerAlnum c || ('A' ≤ c && c ≤ 'Z') then c else '-')))

/-- `BookmarksManager.slugify` with the NFKD/ASCII fold as parameter. -/
def slugifyM (fold : List Char → List Char) (s : String) : String :=
  if s = "" then "" else String.mk (slugifyMCore fold s.data)

/-! ## The regular language `[a-z0-9]+(-[a-z0-9]+)*` -/

mutual

/-- Matches `[a-z0-9]+(-[a-z0-9]+)*` against an entire character list. -/
def matchGroup : List Char → Bool
  | [] => false
  | c :: rest => isLowerAlnum c && matchRest rest

/-- Matches the continuation of a group: either the end of the input, a
hyphen starting a fresh nonempty group, or a further alphanumeric. -/
def matchRest : List Char → Bool
  | [] => true
  | c :: rest => if c = '-' then matchGroup rest else isLowerAlnum c && matchRest rest

end

/-- A string is empty or matches `[a-z0-9]+(-[a-z0-9]+)*`. -/
def slugShaped (s : String) : Bool := s.data.isEmpty || matchGroup s.data

/-- No two adjacent hyphens. -/
def noAdjHyphens : List Char → Bool
  | [] => true
  | [_] => true
  | c :: d :: rest => !(c = '-' ∧ d = '-') && noAdjHyphens (d :: rest)

/-! ## The HTML parser (`BookmarksImporter._parse_html_bookmarks`)

The Python parser classifies each physical line by trying three regexes in
priority order (folder-open `<dt><h3 ...>Name</h3>`, bookmark
`<dt><a ... href="URI" ...>Title</a>`, folder-close `</dl>`), `continue`-ing
after the first match.  A line is embedded as the outcome of that
classification: `HtmlLine.folder` / `.bookmark` (with the captured groups) /
`.close` / `.other` for lines matching none of the three patterns. -/

/-- A normalized bookmark record as produced by the parsers
(the dict built at bookmarks_importer.py lines 219-226). -/
structure BRecord where
  title : String
  uri : String
  category : String
  tags : String
  addDate : String
  lastModified : String
deriving DecidableEq, Repr

/-- One physical line of a Netscape bookmarks file, classified by the first
matching line pattern of `_parse_html_bookmarks`. -/
inductive HtmlLine where
  | folder (name : String)
  | bookmark (uri title tags addDate lastModified : String)
  | close
  | other
deriving DecidableEq, Repr

/-- The loop state of `_parse_html_bookmarks`: the folder stack
`path_parts` and the `current_category` variable. -/
structure HtmlState where
  pathParts : List String
  currentCategory : String
deriving DecidableEq, Repr

/-- `"/".join(path_parts)`. -/
def joinSlash (parts : List String) : String := String.intercalate "/" parts

/-- One iteration of the parser loop (bookmarks_importer.py lines 183-237):
folder-open pushes the slug and recomputes the category, a bookmark line
emits a record carrying `current_category`, a close pops one entry when the
stack is non-empty (and is a no-op otherwise), other lines are ignored. -/
def htmlStep (st : HtmlState) (l : HtmlLine) : HtmlState × Option BRecord :=
  match l with
  | .folder name =>
    let parts := st.pathParts ++ [slugify name]
    (⟨parts, joinSlash parts⟩, none)
  | .bookmark uri title tags addDate lastModified =>
    (st, some ⟨title, uri, st.currentCategory, tags, addDate, lastModified⟩)
  | .close =>
    match st.pathParts with
    | [] => (st, none)
    | _ :: _ =>
      let parts := st.pathParts.dropLast
      (⟨parts, if parts = [] then "unsorted" else joinSlash parts⟩, none)
  | .other => (st, none)

/-- The parser loop over classified lines. -/
def parseHtmlAux (st : HtmlState) : List HtmlLine → List BRecord
  | [] => []
  | l :: rest =>
    match htmlStep st l with
    | (st', none) => parseHtmlAux st' rest
    | (st', some b) => b :: parseHtmlAux st' rest

/-- `_parse_html_bookmarks` (bookmarks_importer.py lines 174-239): start
with an empty stack and category `"unsorted"`. -/
def parseHtmlBookmarks (lines : List HtmlLine) : List BRecord :=
  parseHtmlAux ⟨[], "unsorted"⟩ lines

/-! ## JSON values (executable stand-in for Python's `json.loads`)

`json.loads` is standard-library code, not repository code; the repository
only observes whether the sampled text parses (`detect_file_format`) and, in
the spec's reading of that function, which keys occur in the parsed value.
The stand-in below is a plain recursive-descent parser for the JSON grammar
(strings with escapes, numbers, literals, arrays, objects); the permissive
`NaN`/`Infinity` extensions of Python's decoder are not modelled and are not
exercised by any theorem. -/

/-- A parsed JSON value; numbers keep their raw text. -/
inductive JVal where
  | null
  | jbool (b : Bool)
  | jnum (raw : String)
  | jstr (s : String)
  | jarr (xs : List JVal)
  | jobj (kvs : List (String × JVal))
deriving Repr

/-- JSON insignificant whitespace. -/
def jsonWsChar (c : Char) : Bool := c = ' ' || c = '\t' || c = '\n' || c = '\r'

/-- Skip insignificant whitespace. -/
def jsonSkipWs (l : List Char) : List Char := l.dropWhile jsonWsChar

/-- Hexadecimal digit. -/
def isHexDigitChar (c : Char) : Bool :=
  c.isDigit || ('a' ≤ c && c ≤ 'f') || ('A' ≤ c && c ≤ 'F')

/-- Single-character string escapes. -/
def jsonEsc (e : Char) : Option Char :=
  if e = '"' then some '"'
  else if e = '\\' then some '\\'
  else if e = '/' then some '/'
  else if e = 'b' then some '\x08'
  else if e = 'f' then some '\x0c'
  else if e = 'n' then some '\n'
  else if e = 'r' then some '\r'
  else if e = 't' then some '\t'
  else none

/-- Optional fraction part `.[0-9]+`; returns consumed text and remainder. -/
def jsonNumFrac (l : List Char) : Option (List Char × List Char) :=
  match l with
  | '.' :: rest =>
    let ds := rest.takeWhile Char.isDigit
    if ds.isEmpty then none else some ('.' :: ds, rest.dropWhile Char.isDigit)
  | _ => some ([], l)

/-- Optional exponent part `[eE][+-]?[0-9]+`. -/
def jsonNumExp (l : List Char) : Option (List Char × List Char) :=
  match l with
  | c :: rest =>
    if c = 'e' || c = 'E' then
      let signAndRest : List Char × List Char :=
        match rest with
        | s :: r2 => if s = '+' || s = '-' then ([s], r2) else ([], rest)
        | [] => ([], rest)
      let ds := signAndRest.2.takeWhile Char.isDigit
      if ds.isEmpty then none
      else some (c :: signAndRest.1 ++ ds, signAndRest.2.dropWhile Char.isDigit)
    else some ([], c :: rest)
  | [] => some ([], [])

/-- JSON number `-?(0|[1-9][0-9]*)(\.[0-9]+)?([eE][+-]?[0-9]+)?`. -/
def jsonNum (l : List Char) : Option (JVal × List Char) :=
  let negAndRest : List Char × List Char :=
    match l with
    | '-' :: r => (['-'], r)
    | _ => ([], l)
  match negAndRest.2 with
  | c :: rest =>
    if c = '0' then
      match jsonNumFrac rest with
      | none => none
      | some (f, r2) =>
        match jsonNumExp r2 with
        | none => none
        | some (e, r3) => some (.jnum (String.mk (negAndRest.1 ++ c :: (f ++ e))), r3)
    else if c.isDigit then
      let ds := rest.takeWhile Char.isDigit
      match jsonNumFrac (rest.dropWhile Char.isDigit) with
      | none => none
      | some (f, r2) =>
        match jsonNumExp r2 with
        | none => none
        | some (e, r3) =>
          some (.jnum (String.mk (negAndRest.1 ++ c :: (ds ++ f ++ e))), r3)
    else none
  | [] => none

mutual

/-- Parse one JSON value; `fuel` strictly bounds the recursion depth and is
chosen large enough at the entry point that it never runs out on input the
grammar accepts. -/
def jsonVal : Nat → List Char → Option (JVal × List Char)
  | 0, _ => none
  | fuel + 1, l =>
    match jsonSkipWs l with
    | [] => none
    | '\x7b' :: rest =>
      match jsonSkipWs rest with
      | '\x7d' :: r2 => some (.jobj [], r2)
      | r2 => (jsonMembers fuel r2).map (fun p => (.jobj p.1, p.2))
    | '[' :: rest =>
      match jsonSkipWs rest with
      | ']' :: r2 => some (.jarr [], r2)
      | r2 => (jsonItems fuel r2).map (fun p => (.jarr p.1, p.2))
    | '"' :: rest => (jsonStrBody fuel [] rest).map (fun p => (.jstr p.1, p.2))
    | 't' :: 'r' :: 'u' :: 'e' :: r => some (.jbool true, r)
    | 'f' :: 'a' :: 'l' :: 's' :: 'e' :: r => some (.jbool false, r)
    | 'n' :: 'u' :: 'l' :: 'l' :: r => some (.null, r)
    | l2 => jsonNum l2

/-- Parse one or more `"key": value` members followed by `}`. -/
def jsonMembers : Nat → List Char → Option (List (String × JVal) × List Char)
  | 0, _ => none
  | fuel + 1, l =>
    match jsonSkipWs l with
    | '"' :: rest =>
      match jsonStrBody fuel [] rest with
      | none => none
      | some (k, r) =>
        match jsonSkipWs r with
        | ':' :: r2 =>
          match jsonVal fuel r2 with
          | none => none
          | some (v, r3) =>
            match jsonSkipWs r3 with
            | ',' :: r4 => (jsonMembers fuel r4).map (fun p => ((k, v) :: p.1, p.2))
            | '\x7d' :: r4 => some ([(k, v)], r4)
            | _ => none
        | _ => none
    | _ => none

/-- Parse one or more array items followed by `]`. -/
def jsonItems : Nat → List Char → Option (List JVal × List Char)
  | 0, _ => none
  | fuel + 1, l =>
    match jsonVal fuel l with
    | none => none
    | some (v, r) =>
      match jsonSkipWs r with
      | ',' :: r2 => (jsonItems fuel r2).map (fun p => (v :: p.1, p.2))
      | ']' :: r2 => some ([v], r2)
      | _ => none

/-- Parse the body of a string literal after the opening quote. -/
def jsonStrBody : Nat → List Char → List Char → Option (String × List Char)
  | 0, _, _ => none
  | fuel + 1, acc, l =>
    match l with
    | [] => none
    | '"' :: rest => some (String.mk acc.reverse, rest)
    | '\\' :: e :: rest =>
      if e = 'u' then
        match rest with
        | h1 :: h2 :: h3 :: h4 :: r2 =>
          if isHexDigitChar h1 && isHexDigitChar h2 &&
              isHexDigitChar h3 && isHexDigitChar h4 then
            jsonStrBody fuel ('?' :: acc) r2
          else none
        | _ => none
      else
        match jsonEsc e with
        | some c => jsonStrBody fuel (c :: acc) rest
        | none => none
    | c :: rest => if c.toNat < 32 then none else jsonStrBody fuel (c :: acc) rest

end

/-- `json.loads`: parse a complete document (trailing whitespace allowed).
The fuel `2 * length + 8` exceeds the recursion depth on any input, since
every recursive step first consumes at least one character. -/
def json_loads (s : String) : Option JVal :=
  match jsonVal (2 * s.length + 8) s.data with
  | some (v, rest) => if (jsonSkipWs rest).isEmpty then some v else none
  | none => none

mutual

/-- Does any object anywhere in the value carry the key `k`? -/
def jvalHasKey (k : String) : JVal → Bool
  | .null => false
  | .jbool _ => false
  | .jnum _ => false
  | .jstr _ => false
  | .jarr xs => jvalListHasKey k xs
  | .jobj kvs => jkvListHasKey k kvs

/-- `jvalHasKey` over a list of values. -/
def jvalListHasKey (k : String) : List JVal → Bool
  | [] => false
  | v :: vs => jvalHasKey k v || jvalListHasKey k vs

/-- `jvalHasKey` over object members. -/
def jkvListHasKey (k : String) : List (String × JVal) → Bool
  | [] => false
  | (k', v) :: rest => (k' = k) || jvalHasKey k v || jkvListHasKey k rest

end

/-! ## Format detection (`BookmarksImporter.detect_file_format`) -/

/-- `str.startswith` via the character list (kernel-reducible, unlike
`String.startsWith`). -/
def pyStartsWith (s pre : String) : Bool := pre.data.isPrefixOf s.data

/-- Substring containment (Python's `in` on strings). -/
def listInfix (pat : List Char) : List Char → Bool
  | [] => pat.isEmpty
  | c :: rest => pat.isPrefixOf (c :: rest) || listInfix pat rest

/-- Does `pat` occur in `l` before any newline is crossed?  Models the
`.*` of `re.search(r'<dt><a.*href=', line-oriented, dot does not match a
newline)`. -/
def beforeNewline (pat : List Char) : List Char → Bool
  | [] => pat.isEmpty
  | c :: rest =>
    if pat.isPrefixOf (c :: rest) then true
    else if c = '\n' then false
    else beforeNewline pat rest

/-- Occurrence of `<dt><a` followed on the same line by `href=`
(both already lower-cased). -/
def dtAHrefMarker : List Char → Bool
  | [] => false
  | c :: rest =>
    (("<dt><a".data.isPrefixOf (c :: rest)) &&
      beforeNewline "href=".data ((c :: rest).drop 6))
    || dtAHrefMarker rest

/-- The two case-insensitive HTML markers of `detect_file_format`
(bookmarks_importer.py line 415). -/
def htmlMarker (content : String) : Bool :=
  listInfix "<dt><h3".data (content.data.map Char.toLower)
    || dtAHrefMarker (content.data.map Char.toLower)

/-- The substring test `'"list"' in content or '"given_url"' in content`
(bookmarks_importer.py line 423) — a plain text containment check, not a
key lookup in the parsed JSON. -/
def pocketMarker (content : String) : Bool :=
  listInfix "\"list\"".data content.data
    || listInfix "\"given_url\"".data content.data

/-- The CSV check and fallthrough of `detect_file_format`
(bookmarks_importer.py lines 429-435). -/
def csvOrUnknown (content : String) : String :=
  if content.data.contains ',' ∧ content.data.contains '\n' then
    match content.data.splitOn '\n' with
    | first :: _ :: _ => if first.contains ',' then "csv" else "unknown"
    | _ => "unknown"
  else "unknown"

/-- `detect_file_format` (bookmarks_importer.py lines 408-439) applied to
the file's text; the `f.read(1024)` sampling is the `take 1024`. -/
def detect_file_format (fileContent : String) : String :=
  let content := String.mk (fileContent.data.take 1024)
  if htmlMarker content then "html"
  else if pyStartsWith (pyStrip content) "\x7b" || pyStartsWith (pyStrip content) "[" then
    match json_loads content with
    | some _ => if pocketMarker content then "pocket" else "json"
    | none => csvOrUnknown content
  else csvOrUnknown content

/-! ## Filesystem model

The bookmark tree under `bookmarks_dir`: an association list of category
directories, each holding an association list of files (name ↦ text).
`os.walk` enumeration order is the list order; `os.makedirs(exist_ok=True)`
is `ensureDir`; writing an existing name overwrites, as `open(..., 'w')`
does.  I/O exceptions (disk errors) are modelled by an explicit oracle
`ioErr` over the target path, `false` on a healthy filesystem. -/

/-- Directory listing lookup. -/
def lookupDir : List (String × List (String × String)) → String →
    List (String × String)
  | [], _ => []
  | (e, files) :: rest, d => if e = d then files else lookupDir rest d

/-- Write (create or overwrite) a file in a directory listing. -/
def updFiles (files : List (String × String)) (f c : String) :
    List (String × String) :=
  match files with
  | [] => [(f, c)]
  | (g, old) :: rest => if g = f then (f, c) :: rest else (g, old) :: updFiles rest f c

/-- Write a file, creating the directory if needed. -/
def updDirs (dirs : List (String × List (String × String))) (d f c : String) :
    List (String × List (String × String)) :=
  match dirs with
  | [] => [(d, [(f, c)])]
  | (e, files) :: rest =>
    if e = d then (d, updFiles files f c) :: rest
    else (e, files) :: updDirs rest d f c

/-- `os.makedirs(d, exist_ok=True)` on a directory list. -/
def ensureDirL (dirs : List (String × List (String × String))) (d : String) :
    List (String × List (String × String)) :=
  if dirs.any (fun e => e.1 = d) then dirs else dirs ++ [(d, [])]

/-- The bookmark tree. -/
structure FS where
  dirs : List (String × List (String × String))
deriving DecidableEq, Repr

/-- The empty tree. -/
def FS.empty : FS := ⟨[]⟩

/-- Files of one category directory. -/
def FS.getFiles (fs : FS) (d : String) : List (String × String) :=
  lookupDir fs.dirs d

/-- `os.path.exists` for `<d>/<f>`. -/
def FS.fileExists (fs : FS) (d f : String) : Bool :=
  (fs.getFiles d).any (fun e => e.1 = f)

/-- Write `<d>/<f>`. -/
def FS.write (fs : FS) (d f c : String) : FS := ⟨updDirs fs.dirs d f c⟩

/-- `os.makedirs(d, exist_ok=True)`. -/
def FS.ensureDir (fs : FS) (d : String) : FS := ⟨ensureDirL fs.dirs d⟩

/-! ## The import-path writer (`BookmarksImporter.create_bookmark_file`) -/

/-- `sanitize_filename` (bookmarks_importer.py lines 44-51): replace
filesystem-unsafe characters by `_`, cap the length at 200. -/
def sanitize_filename (s : String) : String :=
  String.mk ((s.data.map (fun c =>
    if c = '<' ∨ c = '>' ∨ c = ':' ∨ c = '"' ∨ c = '/' ∨ c = '\\' ∨
        c = '|' ∨ c = '?' ∨ c = '*' then '_' else c)).take 200)

/-- `title.strip() if title else "Untitled"` — `title` may be `None` or a
string; note that a whitespace-only string is truthy, so it is stripped to
the empty string rather than replaced by `"Untitled"`. -/
def cbfTitle (title : Option String) : String :=
  match title with
  | none => "Untitled"
  | some t => if t = "" then "Untitled" else pyStrip t

/-- `x.strip() if x else dflt` for a plain string argument. -/
def cbfOpt (v dflt : String) : String := if v = "" then dflt else pyStrip v

/-- The category directory: `slugify(category)` after defaulting
(the slash of a nested category path is slugified into a hyphen too,
exactly as in the source, which calls `slugify` on the whole string). -/
def cbfDir (category : String) : String := slugify (cbfOpt category "unsorted")

/-- The filename stem: `slugify(sanitize_filename(title))`. -/
def cbfStem (title : Option String) : String :=
  slugify (sanitize_filename (cbfTitle title))

/-- The chosen file name: on collision with `<stem>.md`, one retry with the
timestamp suffix; the suffixed name is not itself checked. -/
def cbfFname (fs : FS) (ts : String) (title : Option String)
    (category : String) : String :=
  if fs.fileExists (cbfDir category) (cbfStem title ++ ".md")
  then cbfStem title ++ "_" ++ ts ++ ".md"
  else cbfStem title ++ ".md"

/-- The markdown payload (bookmarks_importer.py lines 80-93). -/
def cbfContent (title uri tags addDate lastModified : String) : String :=
  "---\ntitle: " ++ title ++ "\nuri: " ++ uri ++ "\ntags: [" ++ tags ++ "]\n"
  ++ (if addDate = "" then "" else "add_date: " ++ addDate ++ "\n")
  ++ (if lastModified = "" then "" else "last_modified: " ++ lastModified ++ "\n")
  ++ "---\n[" ++ title ++ "](" ++ uri ++ ")\n"

/-- The result dict of `create_bookmark_file`; the success shape fills
`filename`/`category`/`tags`, the failure shape fills `error`. -/
structure WriteResult where
  success : Bool
  filename : String
  title : String
  uri : String
  category : String
  tags : String
  error : String
deriving DecidableEq, Repr

/-- `create_bookmark_file` (bookmarks_importer.py lines 53-117), with the
clock's formatted timestamp `ts` and the I/O-exception oracle `ioErr` made
explicit.  No validation is performed on `uri`: the file is written even
when the stripped `uri` is empty. -/
def create_bookmark_file (ioErr : String → Bool) (fs : FS) (ts : String)
    (title : Option String) (uri category tags addDate lastModified : String) :
    WriteResult × FS :=
  if ioErr (cbfDir category ++ "/" ++ cbfFname fs ts title category) then
    ({ success := false, filename := "", title := cbfTitle title,
       uri := cbfOpt uri "", category := "", tags := "", error := "io-error" },
     fs.ensureDir (cbfDir category))
  else
    ({ success := true,
       filename := cbfDir category ++ "/" ++ cbfFname fs ts title category,
       title := cbfTitle title, uri := cbfOpt uri "",
       category := cbfOpt category "unsorted", tags := cbfOpt tags "",
       error := "" },
     fs.write (cbfDir category) (cbfFname fs ts title category)
       (cbfContent (cbfTitle title) (cbfOpt uri "") (cbfOpt tags "")
         addDate lastModified))

/-! ## Timestamp formatting (`datetime.now().strftime("%Y%m%d_%H%M%S")`) -/

/-- Two-digit zero-padded field (`%m`, `%d`, `%H`, `%M`, `%S`; the datetime
components are always below 100). -/
def pad2 (n : Nat) : List Char := [Nat.digitChar (n / 10 % 10), Nat.digitChar (n % 10)]

/-- Four-digit zero-padded year (`%Y`; Python datetime years are 1-9999). -/
def pad4 (n : Nat) : List Char :=
  [Nat.digitChar (n / 1000 % 10), Nat.digitChar (n / 100 % 10),
   Nat.digitChar (n / 10 % 10), Nat.digitChar (n % 10)]

/-- The collision suffix body `YYYYMMDD_HHMMSS`. -/
def fmtTimestamp (y mo d h mi s : Nat) : String :=
  String.mk (pad4 y ++ pad2 mo ++ pad2 d ++ ['_'] ++ pad2 h ++ pad2 mi ++ pad2 s)

/-- Shape check for a timestamp: 15 characters, digits everywhere except an
underscore at index 8. -/
def tsShaped (str : String) : Bool :=
  str.length = 15 && (str.data.take 8).all Char.isDigit &&
  (str.data.drop 8).head? = some '_' && (str.data.drop 9).all Char.isDigit

/-! ## The four importers and `import_file` -/

/-- Aggregated import report.  `imported` abstracts the `imported` list by
its length (its entries are heterogeneous Python dicts never inspected by
the claims); `errors` keeps one entry per failure. -/
structure ImportResult where
  total : Nat
  success : Nat
  failed : Nat
  errors : List String
  imported : Nat
deriving DecidableEq, Repr

/-- Arguments handed to `create_bookmark_file` for one record. -/
structure WriteArgs where
  title : Option String
  uri : String
  category : String
  tags : String
  addDate : String
  lastModified : String

/-- The whole-file failure report `total=0, success=0, failed=1` returned by
every importer's `except` clause and by `import_file`'s guard branches. -/
def fileErrorResult (e : String) : ImportResult :=
  { total := 0, success := 0, failed := 1, errors := [e], imported := 0 }

/-- In Python, attribute access on a non-dict record (`bookmark.get`,
`item.get`, `item["tags"].keys()`, `items.items()`) raises
`AttributeError`/`TypeError` inside the importer's `try`, so the whole call
returns the file-error shape; the library-generated message text is
abstracted by this constant. -/
def attributeErrorMsg : String := "AttributeError"

/-- The per-record loop shared verbatim (modulo the argument chains) by all
four importers.  Dry-run counts the record as a success without consulting
its attributes or touching the tree.  Otherwise the record's attribute
chain runs first: `none` models a record on which the accesses raise —
the loop and the whole call abort with the file-error report, and the
files already written stay on disk (the filesystem state is kept as is).
On `some args` the writer runs and the report accumulates its outcome. -/
def runRecordsGo {α : Type} (ioErr : String → Bool) (ts : String)
    (dryRun : Bool) (args : α → Option WriteArgs) :
    List α → FS → ImportResult → ImportResult × FS
  | [], fs, acc => (acc, fs)
  | r :: rest, fs, acc =>
    if dryRun then
      runRecordsGo ioErr ts dryRun args rest fs
        { acc with success := acc.success + 1, imported := acc.imported + 1 }
    else
      match args r with
      | none => (fileErrorResult attributeErrorMsg, fs)
      | some a =>
        let w := create_bookmark_file ioErr fs ts a.title a.uri a.category
          a.tags a.addDate a.lastModified
        if w.1.success then
          runRecordsGo ioErr ts dryRun args rest w.2
            { acc with success := acc.success + 1, imported := acc.imported + 1 }
        else
          runRecordsGo ioErr ts dryRun args rest w.2
            { acc with failed := acc.failed + 1, errors := acc.errors ++ [w.1.error] }

/-- Run the loop from the zeroed report with `total` set to the record
count (`total` is assigned up front for HTML/JSON/Pocket and incremented
per row for CSV; its final value is the same). -/
def runRecords {α : Type} (ioErr : String → Bool) (ts : String) (dryRun : Bool)
    (args : α → Option WriteArgs) (recs : List α) (fs : FS) : ImportResult × FS :=
  runRecordsGo ioErr ts dryRun args recs fs
    { total := recs.length, success := 0, failed := 0, errors := [], imported := 0 }

/-- `import_html_bookmarks` (bookmarks_importer.py lines 119-172); the file
read is an `Except` (error on `open`/decode failure), the content arrives as
classified lines.  Records produced by `_parse_html_bookmarks` are always
dicts, so their attribute chain never raises. -/
def import_html_bookmarks (ioErr : String → Bool) (ts : String)
    (input : Except String (List HtmlLine)) (dryRun : Bool) (fs : FS) :
    ImportResult × FS :=
  match input with
  | .error e => (fileErrorResult e, fs)
  | .ok lines =>
    runRecords ioErr ts dryRun
      (fun (b : BRecord) => some
        { title := some b.title, uri := b.uri, category := b.category,
          tags := b.tags, addDate := b.addDate, lastModified := b.lastModified })
      (parseHtmlBookmarks lines) fs

/-- One JSON/CSV record with the optional fields consulted by the alias
chains (`dict.get` returns the value whenever the key is present). -/
structure JsonRec where
  title : Option String
  name : Option String
  uri : Option String
  url : Option String
  link : Option String
  category : Option String
  folder : Option String
  tags : Option String

/-- The alias chains of `import_json_bookmarks`
(bookmarks_importer.py lines 275-280). -/
def jsonArgs (r : JsonRec) : WriteArgs :=
  { title := some (r.title.getD (r.name.getD "")),
    uri := r.uri.getD (r.url.getD (r.link.getD "")),
    category := r.category.getD (r.folder.getD "unsorted"),
    tags := r.tags.getD "", addDate := "", lastModified := "" }

/-- One element of the decoded JSON record list: a JSON object (on which
`dict.get` works), or any other decoded value — number, string, list —
for which `bookmark.get("title", ...)` raises `AttributeError` when the
record is materialized (dry-run appends it without any access). -/
inductive JsonItem where
  | dict (r : JsonRec)
  | nonDict

/-- Attribute chain for one JSON element; `none` = the accesses raise. -/
def jsonItemArgs (it : JsonItem) : Option WriteArgs :=
  match it with
  | .dict r => some (jsonArgs r)
  | .nonDict => none

/-- `import_json_bookmarks` (bookmarks_importer.py lines 241-299); the
decoded record list is the flattening the source performs (top-level list,
or the `bookmarks`/`items` member, or the object itself as one record);
its elements need not be dicts. -/
def import_json_bookmarks (ioErr : String → Bool) (ts : String)
    (input : Except String (List JsonItem)) (dryRun : Bool) (fs : FS) :
    ImportResult × FS :=
  match input with
  | .error e => (fileErrorResult e, fs)
  | .ok items => runRecords ioErr ts dryRun jsonItemArgs items fs

/-- `import_csv_bookmarks` (bookmarks_importer.py lines 301-348); a
header-keyed row feeds the same alias chains as a JSON record.
`csv.DictReader` rows are always dicts, so the row accesses never raise. -/
def import_csv_bookmarks (ioErr : String → Bool) (ts : String)
    (input : Except String (List JsonRec)) (dryRun : Bool) (fs : FS) :
    ImportResult × FS :=
  match input with
  | .error e => (fileErrorResult e, fs)
  | .ok rows => runRecords ioErr ts dryRun (fun r => some (jsonArgs r)) rows fs

/-- One well-shaped Pocket item; `tags` lists the keys of the item's tag
mapping in iteration order (empty for an absent or falsy mapping). -/
structure PocketItem where
  resolvedTitle : Option String
  givenTitle : Option String
  resolvedUrl : Option String
  givenUrl : Option String
  tags : List String

/-- One value of the decoded item mapping: a well-shaped item, or any other
shape — a non-dict item, or a dict whose truthy `tags` value has no
`.keys()` — on which the per-item accesses raise when materialized
(dry-run appends it without any access). -/
inductive PocketVal where
  | item (it : PocketItem)
  | bad

/-- The Pocket item conversion (bookmarks_importer.py lines 377-387):
comma-joined tag keys, fixed category `"pocket"`; the item id is unused by
the source beyond iteration. -/
def pocketItemArgs (_pid : String) (it : PocketItem) : WriteArgs :=
  { title := some (it.resolvedTitle.getD (it.givenTitle.getD "")),
    uri := it.resolvedUrl.getD (it.givenUrl.getD ""),
    category := "pocket", tags := String.intercalate "," it.tags,
    addDate := "", lastModified := "" }

/-- Attribute chain for one Pocket mapping entry. -/
def pocketValArgs (p : String × PocketVal) : Option WriteArgs :=
  match p.2 with
  | .item it => some (pocketItemArgs p.1 it)
  | .bad => none

/-- The decoded Pocket payload: an id-keyed item mapping, or any
decode-succeeding value without `.items()` (a list, a string, a number) for
which `items.items()` raises before the loop even in dry-run. -/
inductive PocketData where
  | notMapping
  | items (l : List (String × PocketVal))

/-- `import_pocket_export` (bookmarks_importer.py lines 350-406). -/
def import_pocket_export (ioErr : String → Bool) (ts : String)
    (input : Except String PocketData) (dryRun : Bool)
    (fs : FS) : ImportResult × FS :=
  match input with
  | .error e => (fileErrorResult e, fs)
  | .ok .notMapping => (fileErrorResult attributeErrorMsg, fs)
  | .ok (.items l) => runRecords ioErr ts dryRun pocketValArgs l fs

/-- The data reachable from one uploaded path: existence, the detector's
verdict on its sample, and the per-format decodings of its bytes. -/
structure ImportInput where
  present : Bool
  detected : String
  htmlData : Except String (List HtmlLine)
  jsonData : Except String (List JsonItem)
  csvData : Except String (List JsonRec)
  pocketData : Except String PocketData

/-- `if not format: format = self.detect_file_format(file_path)` — an empty
explicit format string is falsy and triggers detection too. -/
def resolveFormat (inp : ImportInput) (format : Option String) : String :=
  match format with
  | some f => if f = "" then inp.detected else f
  | none => inp.detected

/-- `import_file` (bookmarks_importer.py lines 441-472). -/
def import_file (ioErr : String → Bool) (ts : String) (inp : ImportInput)
    (format : Option String) (dryRun : Bool) (fs : FS) : ImportResult × FS :=
  if inp.present = false then (fileErrorResult "File not found", fs)
  else
    let fmt := resolveFormat inp format
    if fmt = "html" then import_html_bookmarks ioErr ts inp.htmlData dryRun fs
    else if fmt = "json" then import_json_bookmarks ioErr ts inp.jsonData dryRun fs
    else if fmt = "csv" then import_csv_bookmarks ioErr ts inp.csvData dryRun fs
    else if fmt = "pocket" then import_pocket_export ioErr ts inp.pocketData dryRun fs
    else (fileErrorResult ("Unsupported format: " ++ fmt), fs)

/-! ## The search engine (`BookmarksManager.search_bookmarks`)

Metadata is re-extracted from file text with `re.search`; the three patterns
(`title:\s*(.+)`, `uri:\s*(.+)`, `tags:\s*\[(.+)\]`) are modelled by
specialized scanners with Python's leftmost-match-then-advance and greedy
`\s*`/`(.+)` backtracking semantics. -/

/-- `\s*(.+)` after a matched key: skip maximal whitespace and capture the
rest of the line; when everything to the end is whitespace, backtrack into
the run — the last non-newline whitespace character becomes the capture. -/
def wsCapture (rest : List Char) : Option (List Char) :=
  match rest.dropWhile isPyWs with
  | [] =>
    match (rest.takeWhile isPyWs).reverse.dropWhile (fun c => c = '\n') with
    | [] => none
    | c :: _ => some [c]
  | after => some (after.takeWhile (fun c => c ≠ '\n'))

/-- Leftmost occurrence of `key` followed by a `\s*(.+)` match; on a failed
tail the search resumes one position further, as `re.search` does. -/
def fieldSearch (key : List Char) : List Char → Option (List Char)
  | [] => none
  | c :: rest =>
    if key.isPrefixOf (c :: rest) then
      match wsCapture ((c :: rest).drop key.length) with
      | some cap => some cap
      | none => fieldSearch key rest
    else fieldSearch key rest

/-- `\s*\[(.+)\]` after `tags:`: the bracket must sit right after the
whitespace run, the greedy capture backtracks to the last `]` of the line
and must be nonempty. -/
def tagsCapture (rest : List Char) : Option (List Char) :=
  match rest.dropWhile isPyWs with
  | '[' :: r2 =>
    match ((r2.takeWhile (fun c => c ≠ '\n')).reverse.dropWhile
        (fun c => c ≠ ']')) with
    | ']' :: capRev => if capRev.isEmpty then none else some capRev.reverse
    | _ => none
  | _ => none

/-- Leftmost `tags:\s*\[(.+)\]` match. -/
def tagsSearch : List Char → Option (List Char)
  | [] => none
  | c :: rest =>
    if "tags:".data.isPrefixOf (c :: rest) then
      match tagsCapture ((c :: rest).drop 5) with
      | some cap => some cap
      | none => tagsSearch rest
    else tagsSearch rest

/-- `str.split(',')`. -/
def splitCommaL : List Char → List (List Char)
  | [] => [[]]
  | c :: rest =>
    if c = ',' then [] :: splitCommaL rest
    else
      match splitCommaL rest with
      | g :: gs => (c :: g) :: gs
      | [] => [[c]]

/-- `str.endswith` via character lists. -/
def pyEndsWith (s suffix : String) : Bool :=
  suffix.data.reverse.isPrefixOf s.data.reverse

/-- One search hit.  `id` stands in for the md5 hex digest of the file path
(the hash itself is external library code; it is a function of the path and
no claim inspects its value) — the path itself is used. -/
structure SearchResult where
  id : String
  url : String
  title : String
  tags : List String
  category : String
deriving DecidableEq, Repr

/-- Metadata extraction for one matching file
(bookmarks_manager.py lines 251-277): pattern-extract title, uri and the
bracketed tag list, split tags on commas keeping stripped non-empty entries,
and take the immediate parent directory name as the category. -/
def extractResult (dirName fileName content : String) : SearchResult :=
  let title := match fieldSearch "title:".data content.data with
    | some cap => pyStrip (String.mk cap)
    | none => ""
  let uri := match fieldSearch "uri:".data content.data with
    | some cap => pyStrip (String.mk cap)
    | none => ""
  let tagsStr := match tagsSearch content.data with
    | some cap => pyStrip (String.mk cap)
    | none => ""
  let tags := if tagsStr = "" then []
    else ((splitCommaL tagsStr.data).map (fun g => pyStrip (String.mk g))).filter
      (fun t => t ≠ "")
  { id := dirName ++ "/" ++ fileName, url := uri, title := title, tags := tags,
    category := dirName }

/-- The inner file loop: `.md` files whose lower-cased text contains the
lower-cased query are collected; the loop breaks as soon as `limit` results
are held. -/
def searchFiles (q : List Char) (limit : Nat) (dirName : String) :
    List (String × String) → List SearchResult → List SearchResult
  | [], acc => acc
  | (fname, content) :: rest, acc =>
    if pyEndsWith fname ".md" ∧
        listInfix q (content.data.map Char.toLower) = true then
      let acc2 := acc ++ [extractResult dirName fname content]
      if limit ≤ acc2.length then acc2
      else searchFiles q limit dirName rest acc2
    else searchFiles q limit dirName rest acc

/-- The outer directory walk, in enumeration order, also cut at `limit`. -/
def searchGo (q : List Char) (limit : Nat) :
    List (String × List (String × String)) → List SearchResult →
    List SearchResult
  | [], acc => acc
  | (dirName, files) :: rest, acc =>
    let acc2 := searchFiles q limit dirName files acc
    if limit ≤ acc2.length then acc2 else searchGo q limit rest acc2

/-- `search_bookmarks` (bookmarks_manager.py lines 230-293): queries shorter
than 3 characters return nothing; otherwise a case-insensitive substring
scan over the tree (the root directory itself holds no `.md` files in this
model — the writer only ever creates files inside category directories). -/
def search_bookmarks (fs : FS) (query : String) (limit : Nat) :
    List SearchResult :=
  if query.length < 3 then []
  else searchGo (query.data.map Char.toLower) limit fs.dirs []

/-! ## The manual creation path (`BookmarksManager.create_bookmark`)

Network access (`is_uri_accessible`, `get_final_uri`,
`get_title_from_uri`), the working directory, `os.path.expanduser`,
`os.path.realpath` and the existence check of the target file are external
effects, collected in an environment record of oracle functions. -/

/-- The external world as seen by `create_bookmark`. -/
structure ManagerEnv where
  fold : List Char → List Char
  cwd : String
  expanduser : String → String
  realpath : String → String
  accessible : String → Bool
  finalUri : String → String
  titleFromUri : String → String
  pathExists : String → Bool

/-- `is_url` (bookmarks_manager.py line 53): `^https?://`. -/
def is_url (uri : String) : Bool :=
  pyStartsWith uri "http://" || pyStartsWith uri "https://"

/-- `is_local_file` (bookmarks_manager.py lines 57-62). -/
def is_local_file (uri : String) : Bool :=
  pyStartsWith uri "/" || pyStartsWith uri "~" || pyStartsWith uri "." ||
    pyStartsWith uri ".."

/-- `is_file_uri` (bookmarks_manager.py line 64). -/
def is_file_uri (uri : String) : Bool := pyStartsWith uri "file://"

/-- `is_file` (bookmarks_manager.py line 68). -/
def is_file (uri : String) : Bool := is_local_file uri || is_file_uri uri

/-- `expand_path` (bookmarks_manager.py lines 72-87); `os.path.join` is
plain separator concatenation here. -/
def expand_path (env : ManagerEnv) (uri : String) : String :=
  if uri = "." then env.cwd
  else if uri = ".." then env.cwd ++ "/.."
  else if pyStartsWith uri "~" then env.expanduser uri
  else if pyStartsWith uri "./" then env.cwd ++ "/" ++ String.mk (uri.data.drop 2)
  else if pyStartsWith uri "../" then env.cwd ++ "/../" ++ String.mk (uri.data.drop 3)
  else if is_file_uri uri then String.mk (uri.data.drop 7)
  else uri

/-- `uri.rstrip('/')`. -/
def rstripSlash (s : String) : String :=
  String.mk (dropTrailing (fun c => c = '/') s.data)

/-- `os.path.basename`: the segment after the last `/`. -/
def basename (s : String) : String :=
  String.mk ((s.data.reverse.takeWhile (fun c => c ≠ '/')).reverse)

/-- Outcome of `create_bookmark`: the error dict, or the success dict
together with the file text written. -/
inductive CBResult where
  | err (msg : String)
  | ok (filename title uri category tags content : String)
deriving DecidableEq, Repr

/-- The normalized URI (bookmarks_manager.py lines 146-151): local paths are
expanded and resolved, URLs follow redirects. -/
def cbUri (env : ManagerEnv) (uri : String) : String :=
  if is_url (if is_file uri then env.realpath (expand_path env uri) else uri)
  then env.finalUri (if is_file uri then env.realpath (expand_path env uri) else uri)
  else (if is_file uri then env.realpath (expand_path env uri) else uri)

/-- The defaulted category (bookmarks_manager.py lines 157-162). -/
def cbCategory (uri category : String) : String :=
  if category = "" then (if is_local_file uri then "files" else "unsorted")
  else category

/-- The title fallback chain (bookmarks_manager.py lines 164-170). -/
def cbTitle2 (env : ManagerEnv) (uri title : String) : String :=
  if (if title = "" then env.titleFromUri uri else title) = ""
  then basename (rstripSlash uri)
  else (if title = "" then env.titleFromUri uri else title)

/-- `name = title` when no name is given (bookmarks_manager.py line 173). -/
def cbName (name title : String) : String := if name = "" then title else name

/-- The target path `<category-slug>/<name-slug>.md`. -/
def cbFilename (env : ManagerEnv) (uri title category name : String) : String :=
  slugifyM env.fold (cbCategory (cbUri env uri) category) ++ "/" ++
    slugifyM env.fold (cbName name (cbTitle2 env (cbUri env uri) title)) ++ ".md"

/-- The stored tags (bookmarks_manager.py lines 197-201): the slugified
category, then the given tags after a comma when present. -/
def cbAllTags (env : ManagerEnv) (uri category tags : String) : String :=
  if tags ≠ ""
  then slugifyM env.fold (cbCategory (cbUri env uri) category) ++ "," ++ tags
  else slugifyM env.fold (cbCategory (cbUri env uri) category)

/-- `create_bookmark` (bookmarks_manager.py lines 137-228).  The guard order
follows the source: empty URI, accessibility, empty title, empty category,
existing target (unless `force`); the defaulting steps are pure and named
above. -/
def create_bookmark (env : ManagerEnv) (title uri category tags name : String)
    (force : Bool) : CBResult :=
  if uri = "" then .err "URI cannot be empty"
  else if env.accessible (cbUri env uri) = false then
    .err ("URI is not accessible: " ++ cbUri env uri)
  else if cbTitle2 env (cbUri env uri) title = "" then
    .err ("Title cannot be empty for " ++ cbUri env uri)
  else if cbCategory (cbUri env uri) category = "" then
    .err ("Category cannot be empty for " ++ cbTitle2 env (cbUri env uri) title)
  else if env.pathExists (cbFilename env uri title category name) ∧ force = false
  then .err ("File already exists: " ++ cbFilename env uri title category name)
  else
    .ok (cbFilename env uri title category name)
      (cbTitle2 env (cbUri env uri) title) (cbUri env uri)
      (slugifyM env.fold (cbCategory (cbUri env uri) category))
      (cbAllTags env uri category tags)
      ("---\ntitle: " ++ cbTitle2 env (cbUri env uri) title ++ "\nuri: " ++
        cbUri env uri ++ "\ntags: [" ++ cbAllTags env uri category tags ++
        "]\n---\n[" ++ cbTitle2 env (cbUri env uri) title ++ "](" ++
        cbUri env uri ++ ")\n")

/-! ### Structural facts about the trimming helpers -/

theorem noAdjHyphens_tail {c : Char} {l : List Char}
    (h : noAdjHyphens (c :: l)) : noAdjHyphens l := by
  cases l with
  | nil => simp [noAdjHyphens]
  | cons d r => exact (Bool.and_eq_true .. ▸ h).2

theorem dropTrailing_shape (p : Char → Bool) (c : Char) (rest : List Char) :
    dropTrailing p (c :: rest) = [] ∨ ∃ t, dropTrailing p (c :: rest) = c :: t := by
  simp only [dropTrailing]
  cases dropTrailing p rest with
  | nil =>
    by_cases h : p c = true
    · exact Or.inl (by simp [h])
    · exact Or.inr ⟨[], by simp [h]⟩
  | cons x xs => exact Or.inr ⟨x :: xs, rfl⟩

theorem dropTrailing_all {p q : Char → Bool} {l : List Char} (h : l.all q) :
    (dropTrailing p l).all q := by
  induction l with
  | nil => simp [dropTrailing]
  | cons c rest ih =>
    simp only [List.all_cons, Bool.and_eq_true] at h
    simp only [dropTrailing]
    cases hdt : dropTrailing p rest with
    | nil =>
      split <;> simp [h.1]
    | cons x xs =>
      have hall := ih h.2
      rw [hdt] at hall
      simp only [List.all_cons, Bool.and_eq_true] at hall ⊢
      exact ⟨h.1, hall⟩

theorem dropWhile_all {p q : Char → Bool} {l : List Char} (h : l.all q) :
    (l.dropWhile p).all q := by
  induction l with
  | nil => simp [List.dropWhile]
  | cons c rest ih =>
    simp only [List.all_cons, Bool.and_eq_true] at h
    simp only [List.dropWhile]
    split
    · exact ih h.2
    · simp only [List.all_cons, Bool.and_eq_true]; exact ⟨h.1, h.2⟩

theorem pyTrim_all {p q : Char → Bool} {l : List Char} (h : l.all q) :
    (pyTrim p l).all q := dropTrailing_all (dropWhile_all h)

/-- The head of `pyTrim p l` never satisfies `p`. -/
theorem pyTrim_head (p : Char → Bool) (l : List Char) :
    ∀ c t, pyTrim p l = c :: t → p c = false := by
  intro c t h
  unfold pyTrim at h
  induction l with
  | nil => simp [List.dropWhile, dropTrailing] at h
  | cons x rest ih =>
    rw [List.dropWhile] at h
    split at h
    · exact ih h
    · rename_i hx
      rcases dropTrailing_shape p x rest with h0 | ⟨t', ht⟩
      · rw [h0] at h; cases h
      · rw [ht] at h
        cases h
        simpa using hx

/-- The last element of `dropTrailing p l` never satisfies `p`. -/
theorem dropTrailing_last (p : Char → Bool) (l : List Char) :
    ∀ c t, dropTrailing p l = t ++ [c] → p c = false := by
  induction l with
  | nil => intro c t h; exact absurd h.symm (by simp [dropTrailing])
  | cons x rest ih =>
    intro c t h
    simp only [dropTrailing] at h
    cases hrs : dropTrailing p rest with
    | nil =>
      rw [hrs] at h
      by_cases hx : p x = true
      · rw [if_pos hx] at h
        exact absurd h.symm (by simp)
      · rw [if_neg hx] at h
        have hxc : x = c := by
          cases t with
          | nil => simpa using h
          | cons a b =>
            apply_fun List.length at h
            simp at h
        simpa [← hxc] using hx
    | cons y ys =>
      rw [hrs] at h
      cases t with
      | nil =>
        apply_fun List.length at h
        simp at h
      | cons a b =>
        simp only [List.cons_append, List.cons.injEq] at h
        exact ih c b (by rw [hrs, h.2])

/-- The last element of `pyTrim p l` never satisfies `p`. -/
theorem pyTrim_last (p : Char → Bool) (l : List Char) :
    ∀ c t, pyTrim p l = t ++ [c] → p c = false :=
  fun c t h => dropTrailing_last p (l.dropWhile p) c t h

theorem squeezeHyphens_all {p : Char → Bool} {l : List Char} (h : l.all p) :
    (squeezeHyphens l).all p := by
  induction l with
  | nil => simp [squeezeHyphens]
  | cons c rest ih =>
    cases rest with
    | nil => simpa [squeezeHyphens] using h
    | cons d r =>
      simp only [List.all_cons, Bool.and_eq_true] at h
      simp only [squeezeHyphens]
      split
      · exact ih (by simp [h.2.1, h.2.2])
      · simp only [List.all_cons, Bool.and_eq_true]
        refine ⟨h.1, ?_⟩
        have := ih (by simp [h.2.1, h.2.2] : (d :: r).all p)
        simpa using this

/-- `squeezeHyphens` keeps the head of the list. -/
theorem squeezeHyphens_cons (d : Char) (r : List Char) :
    ∃ t, squeezeHyphens (d :: r) = d :: t := by
  induction r generalizing d with
  | nil => exact ⟨[], rfl⟩
  | cons x xs ih =>
    by_cases h : d = '-' ∧ x = '-'
    · obtain ⟨t, ht⟩ := ih x
      refine ⟨t, ?_⟩
      simp only [squeezeHyphens]
      rw [if_pos h, ht, h.1, h.2]
    · exact ⟨squeezeHyphens (x :: xs), by simp only [squeezeHyphens]; rw [if_neg h]⟩

theorem squeezeHyphens_noAdj (l : List Char) :
    noAdjHyphens (squeezeHyphens l) = true := by
  induction l with
  | nil => rfl
  | cons c rest ih =>
    cases rest with
    | nil => rfl
    | cons d r =>
      simp only [squeezeHyphens]
      split
      · exact ih
      · rename_i hcd
        obtain ⟨t, ht⟩ := squeezeHyphens_cons d r
        rw [ht]
        simp only [noAdjHyphens, Bool.and_eq_true]
        refine ⟨?_, ?_⟩
        · simp only [Bool.not_eq_true', decide_eq_false_iff_not]
          exact hcd
        · rw [← ht]
          exact ih

theorem squeezeHyphens_eq_self {l : List Char} (h : noAdjHyphens l = true) :
    squeezeHyphens l = l := by
  induction l with
  | nil => rfl
  | cons c rest ih =>
    cases rest with
    | nil => rfl
    | cons d r =>
      simp only [noAdjHyphens, Bool.and_eq_true] at h
      simp only [squeezeHyphens]
      have h1 : ¬(c = '-' ∧ d = '-') := by
        have := h.1
        simp only [Bool.not_eq_true', decide_eq_false_iff_not] at this
        exact this
      rw [if_neg h1, ih h.2]

theorem noAdjHyphens_dropWhile {p : Char → Bool} {l : List Char}
    (h : noAdjHyphens l = true) : noAdjHyphens (l.dropWhile p) = true := by
  induction l with
  | nil => simpa
  | cons c rest ih =>
    rw [List.dropWhile_cons]
    split
    · exact ih (noAdjHyphens_tail h)
    · exact h

theorem noAdjHyphens_dropTrailing {p : Char → Bool} {l : List Char}
    (h : noAdjHyphens l = true) : noAdjHyphens (dropTrailing p l) = true := by
  induction l with
  | nil => simpa
  | cons x rest ih =>
    simp only [dropTrailing]
    cases hdt : dropTrailing p rest with
    | nil => by_cases hx : p x = true <;> simp [hx, noAdjHyphens]
    | cons y ys =>
      have hy := ih (noAdjHyphens_tail h)
      rw [hdt] at hy
      cases rest with
      | nil => simp [dropTrailing] at hdt
      | cons z zs =>
        rcases dropTrailing_shape p z zs with h0 | ⟨t, ht⟩
        · rw [h0] at hdt; cases hdt
        · rw [ht] at hdt
          injection hdt with h1 h2
          subst h1
          subst h2
          simp only [noAdjHyphens, Bool.and_eq_true] at h ⊢
          exact ⟨h.1, hy⟩

theorem noAdjHyphens_pyTrim {p : Char → Bool} {l : List Char}
    (h : noAdjHyphens l = true) : noAdjHyphens (pyTrim p l) = true :=
  noAdjHyphens_dropTrailing (noAdjHyphens_dropWhile h)

theorem dropWhile_eq_self_of {p : Char → Bool} {l : List Char}
    (h : ∀ c t, l = c :: t → p c = false) : l.dropWhile p = l := by
  cases l with
  | nil => rfl
  | cons c t => rw [List.dropWhile_cons, if_neg (by simp [h c t rfl])]

theorem dropTrailing_eq_self_of {p : Char → Bool} {l : List Char}
    (h : ∀ c t, l = t ++ [c] → p c = false) : dropTrailing p l = l := by
  induction l with
  | nil => rfl
  | cons x rest ih =>
    have hrest : dropTrailing p rest = rest :=
      ih (fun c t ht => h c (x :: t) (by rw [ht, List.cons_append]))
    simp only [dropTrailing, hrest]
    cases rest with
    | nil =>
      have hx : p x = false := h x [] rfl
      simp [hx]
    | cons y ys => rfl

theorem pyTrim_eq_self_of {p : Char → Bool} {l : List Char}
    (hh : ∀ c t, l = c :: t → p c = false)
    (hl : ∀ c t, l = t ++ [c] → p c = false) : pyTrim p l = l := by
  unfold pyTrim
  rw [dropWhile_eq_self_of hh]
  exact dropTrailing_eq_self_of hl

theorem map_id_of_all {f : Char → Char} {l : List Char}
    (h : ∀ c ∈ l, f c = c) : l.map f = l := by
  induction l with
  | nil => rfl
  | cons c rest ih =>
    simp only [List.map_cons]
    rw [h c (by simp), ih (fun d hd => h d (by simp [hd]))]

/-! ### Character class facts -/

theorem toLower_eq_self_of_isSlugChar {c : Char} (h : isSlugChar c = true) :
    Char.toLower c = c := by
  simp only [isSlugChar, isLowerAlnum, Bool.or_eq_true, Bool.and_eq_true,
    decide_eq_true_eq] at h
  simp only [Char.toLower]
  rw [if_neg]
  intro hcon
  rcases h with (⟨h1, h2⟩ | ⟨h1, h2⟩) | h1
  · have h1' : 97 ≤ c.toNat := Char.le_def.mp h1
    omega
  · have h2' : c.toNat ≤ 57 := Char.le_def.mp h2
    omega
  · rw [h1] at hcon
    exact absurd hcon (by decide)

theorem isPyWs_eq_false_of_isSlugChar {c : Char} (h : isSlugChar c = true) :
    isPyWs c = false := by
  by_contra hcon
  simp only [Bool.not_eq_false, isPyWs, Bool.or_eq_true, decide_eq_true_eq] at hcon
  rcases hcon with ((((h1 | h1) | h1) | h1) | h1) | h1 <;>
    · subst h1; simp [isSlugChar, isLowerAlnum] at h

theorem isSlugChar_ascii {c : Char} (h : isSlugChar c = true) : c.toNat < 128 := by
  simp only [isSlugChar, isLowerAlnum, Bool.or_eq_true, Bool.and_eq_true,
    decide_eq_true_eq] at h
  rcases h with (⟨h1, h2⟩ | ⟨h1, h2⟩) | h1
  · have h2' : c.toNat ≤ 122 := Char.le_def.mp h2
    omega
  · have h2' : c.toNat ≤ 57 := Char.le_def.mp h2
    omega
  · rw [h1]; decide

theorem toLower_not_upper (c : Char) :
    ('A' ≤ Char.toLower c && Char.toLower c ≤ 'Z') = false := by
  simp only [Char.toLower]
  split
  · rename_i h
    have hv : (Char.ofNat (c.toNat + 32)).toNat = c.toNat + 32 := by
      unfold Char.ofNat
      rw [dif_pos (Or.inl (by omega : c.toNat + 32 < 55296))]
      rfl
    by_contra hcon
    simp only [Bool.not_eq_false, Bool.and_eq_true, decide_eq_true_eq] at hcon
    have h2 : (Char.ofNat (c.toNat + 32)).toNat ≤ 90 := Char.le_def.mp hcon.2
    omega
  · rename_i h
    by_contra hcon
    simp only [Bool.not_eq_false, Bool.and_eq_true, decide_eq_true_eq] at hcon
    have h1 : 65 ≤ c.toNat := Char.le_def.mp hcon.1
    have h2 : c.toNat ≤ 90 := Char.le_def.mp hcon.2
    exact h ⟨h1, h2⟩

/-! ### Acceptance by the slug language -/

theorem matchRest_of_good : ∀ l : List Char, l.all isSlugChar = true →
    noAdjHyphens l = true → (∀ c t, l = t ++ [c] → c ≠ '-') →
    matchRest l = true := by
  intro l
  induction l with
  | nil => intro _ _ _; rfl
  | cons c rest ih =>
    intro hall hadj hlast
    simp only [List.all_cons, Bool.and_eq_true] at hall
    have hrest := ih hall.2 (noAdjHyphens_tail hadj)
      (fun c' t ht => hlast c' (c :: t) (by rw [List.cons_append, ht]))
    simp only [matchRest]
    by_cases hc : c = '-'
    · rw [if_pos hc]
      cases rest with
      | nil => exact absurd hc (hlast c [] rfl)
      | cons d r =>
        have hd : ¬(c = '-' ∧ d = '-') := by
          simp only [noAdjHyphens, Bool.and_eq_true] at hadj
          have := hadj.1
          simp only [Bool.not_eq_true', decide_eq_false_iff_not] at this
          exact this
        have hd' : d ≠ '-' := fun hdd => hd ⟨hc, hdd⟩
        have hdal : isLowerAlnum d = true := by
          have hsd := hall.2
          simp only [List.all_cons, Bool.and_eq_true] at hsd
          have := hsd.1
          simp only [isSlugChar, Bool.or_eq_true] at this
          rcases this with h | h
          · exact h
          · exact absurd (by simpa using h) hd'
        simp only [matchGroup]
        simp only [matchRest, if_neg hd'] at hrest
        exact hrest
    · rw [if_neg hc]
      have hca : isLowerAlnum c = true := by
        have := hall.1
        simp only [isSlugChar, Bool.or_eq_true] at this
        rcases this with h | h
        · exact h
        · exact absurd (by simpa using h) hc
      simp [hca, hrest]

theorem matchGroup_of_good {l : List Char} (hne : l ≠ [])
    (hall : l.all isSlugChar = true) (hadj : noAdjHyphens l = true)
    (hhead : ∀ c t, l = c :: t → c ≠ '-')
    (hlast : ∀ c t, l = t ++ [c] → c ≠ '-') : matchGroup l = true := by
  cases l with
  | nil => exact absurd rfl hne
  | cons c rest =>
    have hc : c ≠ '-' := hhead c rest rfl
    simp only [List.all_cons, Bool.and_eq_true] at hall
    have hca : isLowerAlnum c = true := by
      have := hall.1
      simp only [isSlugChar, Bool.or_eq_true] at this
      rcases this with h | h
      · exact h
      · exact absurd (by simpa using h) hc
    have hrest := matchRest_of_good rest hall.2 (noAdjHyphens_tail hadj)
      (fun c' t ht => hlast c' (c :: t) (by rw [List.cons_append, ht]))
    simp [matchGroup, hca, hrest]

/-! ### The slug pipelines produce well-shaped output -/

theorem sub_all (X : List Char) :
    (X.map (fun c => if isSlugChar c then c else '-')).all isSlugChar = true := by
  rw [List.all_map]
  apply List.all_eq_true.mpr
  intro x _
  by_cases h : isSlugChar x = true
  · simp [h]
  · have hx : isSlugChar x = false := Bool.eq_false_iff.mpr h
    simp only [Function.comp_apply, hx]
    rw [if_neg (by simp)]
    decide

theorem subM_all (X : List Char) :
    ((X.map Char.toLower).map
      (fun c => if isLowerAlnum c || ('A' ≤ c && c ≤ 'Z') then c else '-')).all
        isSlugChar = true := by
  rw [List.all_map, List.all_map]
  apply List.all_eq_true.mpr
  intro x _
  simp only [Function.comp_apply]
  by_cases h : isLowerAlnum (Char.toLower x) = true
  · simp [h, isSlugChar]
  · have hcond : (isLowerAlnum (Char.toLower x) ||
        ('A' ≤ Char.toLower x && Char.toLower x ≤ 'Z')) = false := by
      rw [Bool.or_eq_false_iff]
      exact ⟨Bool.eq_false_iff.mpr h, toLower_not_upper x⟩
    simp [hcond, isSlugChar]

theorem slugifyCore_all (l : List Char) :
    (slugifyCore l).all isSlugChar = true :=
  pyTrim_all (squeezeHyphens_all (sub_all _))

theorem slugifyCore_noAdj (l : List Char) :
    noAdjHyphens (slugifyCore l) = true :=
  noAdjHyphens_pyTrim (squeezeHyphens_noAdj _)

theorem slugifyCore_head (l : List Char) :
    ∀ c t, slugifyCore l = c :: t → c ≠ '-' := by
  intro c t h
  have := pyTrim_head (fun c => c = '-') _ c t h
  simpa using this

theorem slugifyCore_last (l : List Char) :
    ∀ c t, slugifyCore l = t ++ [c] → c ≠ '-' := by
  intro c t h
  have := pyTrim_last (fun c => c = '-') _ c t h
  simpa using this

theorem slugifyMCore_all (fold : List Char → List Char) (l : List Char) :
    (slugifyMCore fold l).all isSlugChar = true :=
  pyTrim_all (squeezeHyphens_all (subM_all _))

theorem slugifyMCore_noAdj (fold : List Char → List Char) (l : List Char) :
    noAdjHyphens (slugifyMCore fold l) = true :=
  noAdjHyphens_pyTrim (squeezeHyphens_noAdj _)

theorem slugifyMCore_head (fold : List Char → List Char) (l : List Char) :
    ∀ c t, slugifyMCore fold l = c :: t → c ≠ '-' := by
  intro c t h
  have := pyTrim_head (fun c => c = '-') _ c t h
  simpa using this

theorem slugifyMCore_last (fold : List Char → List Char) (l : List Char) :
    ∀ c t, slugifyMCore fold l = t ++ [c] → c ≠ '-' := by
  intro c t h
  have := pyTrim_last (fun c => c = '-') _ c t h
  simpa using this

/-! ### Idempotence of the slug pipelines -/

theorem slugifyCore_eq_self {l : List Char} (hall : l.all isSlugChar = true)
    (hadj : noAdjHyphens l = true)
    (hh : ∀ c t, l = c :: t → c ≠ '-')
    (hl : ∀ c t, l = t ++ [c] → c ≠ '-') : slugifyCore l = l := by
  have h1 : l.map Char.toLower = l :=
    map_id_of_all (fun c hc =>
      toLower_eq_self_of_isSlugChar (List.all_eq_true.mp hall c hc))
  have h2 : stripWs l = l :=
    pyTrim_eq_self_of
      (fun c t ht => isPyWs_eq_false_of_isSlugChar
        (List.all_eq_true.mp hall c (by rw [ht]; exact List.mem_cons_self c t)))
      (fun c t ht => isPyWs_eq_false_of_isSlugChar
        (List.all_eq_true.mp hall c (by rw [ht]; simp)))
  have h3 : l.map (fun c => if isSlugChar c then c else '-') = l :=
    map_id_of_all (fun c hc => by rw [if_pos (List.all_eq_true.mp hall c hc)])
  have h4 : squeezeHyphens l = l := squeezeHyphens_eq_self hadj
  have h5 : stripHyphens l = l :=
    pyTrim_eq_self_of
      (fun c t ht => decide_eq_false (hh c t ht))
      (fun c t ht => decide_eq_false (hl c t ht))
  simp only [slugifyCore]
  rw [h1, h2, h3, h4]
  exact h5

theorem slugifyMCore_eq_self (fold : List Char → List Char)
    (hfold : ∀ m : List Char, m.all (fun c => c.toNat < 128) = true → fold m = m)
    {l : List Char} (hall : l.all isSlugChar = true)
    (hadj : noAdjHyphens l = true)
    (hh : ∀ c t, l = c :: t → c ≠ '-')
    (hl : ∀ c t, l = t ++ [c] → c ≠ '-') : slugifyMCore fold l = l := by
  have hascii : l.all (fun c => c.toNat < 128) = true :=
    List.all_eq_true.mpr (fun c hc =>
      decide_eq_true (isSlugChar_ascii (List.all_eq_true.mp hall c hc)))
  have h1 : l.map Char.toLower = l :=
    map_id_of_all (fun c hc =>
      toLower_eq_self_of_isSlugChar (List.all_eq_true.mp hall c hc))
  have h3 : l.map (fun c => if isLowerAlnum c || ('A' ≤ c && c ≤ 'Z') then c else '-')
      = l := by
    apply map_id_of_all
    intro c hc
    have hsc := List.all_eq_true.mp hall c hc
    by_cases ha : isLowerAlnum c = true
    · rw [if_pos (by simp [ha])]
    · have hd : c = '-' := by
        simp only [isSlugChar, Bool.or_eq_true] at hsc
        rcases hsc with h | h
        · exact absurd h ha
        · simpa using h
      rw [hd]
      rfl
  have h4 : squeezeHyphens l = l := squeezeHyphens_eq_self hadj
  have h5 : stripHyphens l = l :=
    pyTrim_eq_self_of
      (fun c t ht => decide_eq_false (hh c t ht))
      (fun c t ht => decide_eq_false (hl c t ht))
  simp only [slugifyMCore]
  rw [hfold l hascii, h1, h3, h4]
  exact h5

theorem slugShaped_mk (l : List Char) :
    slugShaped (String.mk l) = (l.isEmpty || matchGroup l) := rfl

theorem slugify_idempotent (x : String) : slugify (slugify x) = slugify x := by
  by_cases hs : x = ""
  · simp [hs, slugify]
  · have hdef : slugify x = String.mk (slugifyCore x.data) := by
      rw [slugify, if_neg hs]
    rw [hdef]
    by_cases ht : String.mk (slugifyCore x.data) = ""
    · rw [ht]
      rfl
    · rw [slugify, if_neg ht]
      congr 1
      exact slugifyCore_eq_self (slugifyCore_all _) (slugifyCore_noAdj _)
        (slugifyCore_head _) (slugifyCore_last _)

theorem slugify_shaped (x : String) : slugShaped (slugify x) = true := by
  by_cases hs : x = ""
  · simp [hs, slugify, slugShaped]
  · rw [slugify, if_neg hs, slugShaped_mk]
    cases hc : slugifyCore x.data with
    | nil => simp
    | cons c t =>
      have hm := matchGroup_of_good (l := slugifyCore x.data)
        (by rw [hc]; simp) (slugifyCore_all _) (slugifyCore_noAdj _)
        (slugifyCore_head _) (slugifyCore_last _)
      rw [hc] at hm
      simp [hm]

theorem slugifyM_idempotent (fold : List Char → List Char)
    (hfold : ∀ m : List Char, m.all (fun c => c.toNat < 128) = true → fold m = m)
    (x : String) : slugifyM fold (slugifyM fold x) = slugifyM fold x := by
  by_cases hs : x = ""
  · simp [hs, slugifyM]
  · have hdef : slugifyM fold x = String.mk (slugifyMCore fold x.data) := by
      rw [slugifyM, if_neg hs]
    rw [hdef]
    by_cases ht : String.mk (slugifyMCore fold x.data) = ""
    · rw [ht]
      rfl
    · rw [slugifyM, if_neg ht]
      congr 1
      exact slugifyMCore_eq_self fold hfold (slugifyMCore_all _ _)
        (slugifyMCore_noAdj _ _) (slugifyMCore_head _ _) (slugifyMCore_last _ _)

theorem slugifyM_shaped (fold : List Char → List Char) (x : String) :
    slugShaped (slugifyM fold x) = true := by
  by_cases hs : x = ""
  · simp [hs, slugifyM, slugShaped]
  · rw [slugifyM, if_neg hs, slugShaped_mk]
    cases hc : slugifyMCore fold x.data with
    | nil => simp
    | cons c t =>
      have hm := matchGroup_of_good (l := slugifyMCore fold x.data)
        (by rw [hc]; simp) (slugifyMCore_all _ _) (slugifyMCore_noAdj _ _)
        (slugifyMCore_head _ _) (slugifyMCore_last _ _)
      rw [hc] at hm
      simp [hm]

/-! ## Claim C4 -/

/-- C4: for every input string `x`, `slug(slug(x)) = slug(x)`, and `slug(x)`
is either the empty string or matches the regular language
`[a-z0-9]+(-[a-z0-9]+)*`; empty input yields empty output.  This holds for
both slug implementations: `BookmarksImporter.slugify` unconditionally, and
`BookmarksManager.slugify` for any ASCII-fold `fold` that is the identity on
ASCII character lists (true of `NFKD`-normalize-then-encode-ascii-ignore). -/
theorem claim_C4_slug_idempotent_and_shaped (x : String)
    (fold : List Char → List Char)
    (hfold : ∀ m : List Char, m.all (fun c => c.toNat < 128) = true → fold m = m) :
    slugify (slugify x) = slugify x ∧
    slugShaped (slugify x) = true ∧
    slugify "" = "" ∧
    slugifyM fold (slugifyM fold x) = slugifyM fold x ∧
    slugShaped (slugifyM fold x) = true ∧
    slugifyM fold "" = "" :=
  ⟨slugify_idempotent x, slugify_shaped x, rfl,
   slugifyM_idempotent fold hfold x, slugifyM_shaped fold x, rfl⟩

/-- C4 witness: the theorem applied at `x = "Hello,  World!"` with the
identity fold, whose hypothesis holds by `rfl`; the slug value itself is
evaluated concretely. -/
theorem claim_C4_witness :
    (slugify (slugify "Hello,  World!") = slugify "Hello,  World!" ∧
      slugShaped (slugify "Hello,  World!") = true) ∧
    slugify "Hello,  World!" = "hello-world" :=
  ⟨⟨(claim_C4_slug_idempotent_and_shaped "Hello,  World!" (fun m => m)
      (fun _ _ => rfl)).1,
    (claim_C4_slug_idempotent_and_shaped "Hello,  World!" (fun m => m)
      (fun _ _ => rfl)).2.1⟩,
   by decide⟩

/-! ## Claim C2 -/

/-- C2: for classified HTML lines opening folder `A`, then folder `B`, each
folder containing one bookmark line, followed by two `</dl>` closes, the
parser assigns the innermost bookmark the category `"a/b"` (and the bookmark
in `A` the category `"a"`); any bookmark line after both closes gets
`"unsorted"` — the state returns to the initial one, so parsing continues as
from scratch; and a `</dl>` with an empty folder stack is a no-op. -/
theorem claim_C2_html_folder_stack (u₁ t₁ u₂ t₂ u₃ t₃ : String) :
    (∀ rest, parseHtmlBookmarks
        ([.folder "A", .bookmark u₁ t₁ "" "" "", .folder "B",
          .bookmark u₂ t₂ "" "" "", .close, .close] ++ rest) =
      ⟨t₁, u₁, "a", "", "", ""⟩ :: ⟨t₂, u₂, "a/b", "", "", ""⟩ ::
        parseHtmlBookmarks rest) ∧
    parseHtmlBookmarks
        [.folder "A", .bookmark u₁ t₁ "" "" "", .folder "B",
         .bookmark u₂ t₂ "" "" "", .close, .close,
         .bookmark u₃ t₃ "" "" ""] =
      [⟨t₁, u₁, "a", "", "", ""⟩, ⟨t₂, u₂, "a/b", "", "", ""⟩,
       ⟨t₃, u₃, "unsorted", "", "", ""⟩] ∧
    (∀ st : HtmlState, st.pathParts = [] → htmlStep st .close = (st, none)) := by
  refine ⟨fun rest => rfl, rfl, ?_⟩
  intro st hst
  cases st with
  | mk parts cat =>
    simp only at hst
    subst hst
    rfl

/-- C2 witness: the theorem applied at concrete bookmarks, its empty-stack
hypothesis discharged at the initial state. -/
theorem claim_C2_witness :
    parseHtmlBookmarks
        [.folder "A", .bookmark "https://x" "X" "" "" "", .folder "B",
         .bookmark "https://y" "Y" "" "" "", .close, .close,
         .bookmark "https://z" "Z" "" "" ""] =
      [⟨"X", "https://x", "a", "", "", ""⟩, ⟨"Y", "https://y", "a/b", "", "", ""⟩,
       ⟨"Z", "https://z", "unsorted", "", "", ""⟩] ∧
    htmlStep ⟨[], "unsorted"⟩ .close = (⟨[], "unsorted"⟩, none) :=
  ⟨(claim_C2_html_folder_stack "https://x" "X" "https://y" "Y"
      "https://z" "Z").2.1,
   (claim_C2_html_folder_stack "https://x" "X" "https://y" "Y"
      "https://z" "Z").2.2 ⟨[], "unsorted"⟩ rfl⟩

/-! ## Claim C3 -/

/-- C3 counterexample: the sample `["given_url"]` parses as a JSON array
containing the string `"given_url"` — no object key `"list"` or
`"given_url"` occurs anywhere in the parsed value — yet `detect_file_format`
returns `"pocket"`, not `"json"`, because the code tests for the substrings
`'"list"'` / `'"given_url"'` in the raw sample rather than for keys. -/
theorem claim_C3_counterexample :
    detect_file_format "[\"given_url\"]" = "pocket" ∧
    json_loads "[\"given_url\"]" = some (JVal.jarr [JVal.jstr "given_url"]) ∧
    jvalHasKey "list" (JVal.jarr [JVal.jstr "given_url"]) = false ∧
    jvalHasKey "given_url" (JVal.jarr [JVal.jstr "given_url"]) = false ∧
    "pocket" ≠ "json" :=
  ⟨rfl, rfl, rfl, rfl, by decide⟩

/-- C3 (amended): `detect_file_format` applies the decision order with first
match winning on the first-1024-character sample: HTML markers first; else,
for a sample whose trimmed text starts with a brace or bracket and which
parses as JSON, `"pocket"` exactly when the raw sample contains the
substring `"list"` or `"given_url"` (in quotes) and `"json"` otherwise;
parse failure falls through to the CSV check (comma and newline present and
comma in the first line), else `"unknown"`. -/
theorem claim_C3_detect_first_match_wins (fileContent s : String)
    (hs : s = String.mk (fileContent.data.take 1024)) :
    (htmlMarker s = true → detect_file_format fileContent = "html") ∧
    (htmlMarker s = false →
      (pyStartsWith (pyStrip s) "\x7b" || pyStartsWith (pyStrip s) "[") = true →
      ∀ v, json_loads s = some v →
        detect_file_format fileContent =
          (if pocketMarker s then "pocket" else "json")) ∧
    (htmlMarker s = false →
      ((pyStartsWith (pyStrip s) "\x7b" || pyStartsWith (pyStrip s) "[") = false ∨
        json_loads s = none) →
      detect_file_format fileContent = csvOrUnknown s) ∧
    (s.data.contains ',' = false ∨ s.data.contains '\n' = false →
      csvOrUnknown s = "unknown") ∧
    (∀ first c₂ rest, s.data.contains ',' = true → s.data.contains '\n' = true →
      s.data.splitOn '\n' = first :: c₂ :: rest →
      csvOrUnknown s = (if first.contains ',' then "csv" else "unknown")) := by
  subst hs
  refine ⟨?_, ?_, ?_, ?_, ?_⟩
  · intro hm
    simp only [detect_file_format, hm, if_true]
  · intro hm hstart v hjson
    simp only [detect_file_format, hm, Bool.false_eq_true, if_false, hstart,
      if_true, hjson]
  · intro hm hrest
    rcases hrest with hstart | hjson
    · simp only [detect_file_format, hm, Bool.false_eq_true, if_false, hstart]
    · simp only [detect_file_format, hm, Bool.false_eq_true, if_false, hjson]
      split <;> rfl
  · intro h
    rcases h with h | h <;>
      simp only [csvOrUnknown, h, Bool.false_eq_true, false_and, and_false,
        if_false]
  · intro first c₂ rest hc hn hsplit
    simp only [csvOrUnknown, hc, hn, and_self, if_true, hsplit]

/-- C3 witness: the amended theorem applied at two concrete samples — a
Netscape HTML marker line and a two-column CSV — with every hypothesis
discharged by evaluation. -/
theorem claim_C3_witness :
    detect_file_format "<dt><h3>A</h3>" = "html" ∧
    detect_file_format "title,url\nx,y" = "csv" := by
  constructor
  · exact (claim_C3_detect_first_match_wins "<dt><h3>A</h3>"
      (String.mk ("<dt><h3>A</h3>".data.take 1024)) rfl).1 (by decide)
  · have h := claim_C3_detect_first_match_wins "title,url\nx,y"
      (String.mk ("title,url\nx,y".data.take 1024)) rfl
    have h3 := h.2.2.1 (by decide) (Or.inl (by decide))
    have h5 := h.2.2.2.2 "title,url".data "x,y".data [] (by decide) (by decide)
      (by decide)
    rw [h3, h5]
    decide

/-! ### Filesystem lemmas -/

theorem lookupDir_updDirs_self
    (dirs : List (String × List (String × String))) (d f c : String) :
    lookupDir (updDirs dirs d f c) d = updFiles (lookupDir dirs d) f c := by
  induction dirs with
  | nil => simp [updDirs, lookupDir, updFiles]
  | cons e rest ih =>
    obtain ⟨e1, files⟩ := e
    simp only [updDirs, lookupDir]
    by_cases h : e1 = d
    · subst h
      rw [if_pos rfl]
      simp [lookupDir]
    · rw [if_neg h]
      simp [lookupDir, h, ih]

theorem any_updFiles_self (files : List (String × String)) (f c : String) :
    (updFiles files f c).any (fun e => e.1 = f) = true := by
  induction files with
  | nil => simp [updFiles]
  | cons g rest ih =>
    obtain ⟨g1, old⟩ := g
    simp only [updFiles]
    by_cases h : g1 = f
    · rw [if_pos h]
      simp
    · rw [if_neg h]
      simp [ih]

theorem any_updFiles_other (files : List (String × String)) (f c g : String)
    (h : g ≠ f) :
    (updFiles files f c).any (fun e => e.1 = g) = files.any (fun e => e.1 = g) := by
  induction files with
  | nil =>
    simp [updFiles]
    exact fun hfg => h hfg.symm
  | cons x rest ih =>
    obtain ⟨g1, old⟩ := x
    simp only [updFiles]
    by_cases h1 : g1 = f
    · subst h1
      rw [if_pos rfl]
      simp
    · rw [if_neg h1]
      simp [ih]

theorem fileExists_write_self (fs : FS) (d f c : String) :
    (fs.write d f c).fileExists d f = true := by
  simp [FS.write, FS.fileExists, FS.getFiles, lookupDir_updDirs_self,
    any_updFiles_self]

theorem fileExists_write_other (fs : FS) (d f c g : String) (h : g ≠ f) :
    (fs.write d f c).fileExists d g = fs.fileExists d g := by
  simp [FS.write, FS.fileExists, FS.getFiles, lookupDir_updDirs_self,
    any_updFiles_other _ _ _ _ h]

/-! ### Writer lemmas -/

/-- On a healthy filesystem (`ioErr` constantly false) the writer always
takes the success branch. -/
theorem create_ok (fs : FS) (ts : String) (title : Option String)
    (uri category tags ad lm : String) :
    create_bookmark_file (fun _ => false) fs ts title uri category tags ad lm =
      ({ success := true,
         filename := cbfDir category ++ "/" ++ cbfFname fs ts title category,
         title := cbfTitle title, uri := cbfOpt uri "",
         category := cbfOpt category "unsorted", tags := cbfOpt tags "",
         error := "" },
       fs.write (cbfDir category) (cbfFname fs ts title category)
         (cbfContent (cbfTitle title) (cbfOpt uri "") (cbfOpt tags "") ad lm)) :=
  rfl

/-- The returned `title` field is `cbfTitle title` on both branches. -/
theorem create_title (ioErr : String → Bool) (fs : FS) (ts : String)
    (title : Option String) (uri category tags ad lm : String) :
    (create_bookmark_file ioErr fs ts title uri category tags ad lm).1.title =
      cbfTitle title := by
  unfold create_bookmark_file
  split <;> rfl

/-! ### Timestamp shape -/

theorem digitChar_isDigit (n : Nat) (h : n < 10) :
    (Nat.digitChar n).isDigit = true := by
  interval_cases n <;> decide

theorem tsShaped_fmtTimestamp (y mo d h mi s : Nat) :
    tsShaped (fmtTimestamp y mo d h mi s) = true := by
  have k : ∀ m : Nat, (Nat.digitChar (m % 10)).isDigit = true :=
    fun m => digitChar_isDigit _ (Nat.mod_lt _ (by norm_num))
  simp only [tsShaped, fmtTimestamp, pad4, pad2, List.cons_append,
    List.nil_append, String.length]
  simp [List.all_cons, k]

theorem fmtTimestamp_length (y mo d h mi s : Nat) :
    (fmtTimestamp y mo d h mi s).length = 15 := rfl

theorem stemMd_ne_suffixed (stem ts : String) (hts : ts.length = 15) :
    stem ++ ".md" ≠ stem ++ "_" ++ ts ++ ".md" := by
  intro h
  have hlen := congrArg String.length h
  simp only [String.length_append] at hlen
  omega

/-! ### Import loop lemmas -/

theorem runRecordsGo_counts {α : Type} (ioErr : String → Bool) (ts : String)
    (dryRun : Bool) (args : α → Option WriteArgs) :
    ∀ (recs : List α) (fs : FS) (acc : ImportResult),
      (∀ r ∈ recs, args r ≠ none) →
      ((runRecordsGo ioErr ts dryRun args recs fs acc).1.success +
        (runRecordsGo ioErr ts dryRun args recs fs acc).1.failed =
        acc.success + acc.failed + recs.length) ∧
      (runRecordsGo ioErr ts dryRun args recs fs acc).1.total = acc.total := by
  intro recs
  induction recs with
  | nil =>
    intro fs acc _
    simp [runRecordsGo]
  | cons r rest ih =>
    intro fs acc hsome
    have htail : ∀ x ∈ rest, args x ≠ none :=
      fun x hx => hsome x (List.mem_cons_of_mem r hx)
    cases acc with
    | mk t su fa er im =>
      simp only [runRecordsGo]
      by_cases hd : dryRun = true
      · rw [if_pos hd]
        obtain ⟨h1, h2⟩ := ih fs ⟨t, su + 1, fa, er, im + 1⟩ htail
        refine ⟨?_, h2⟩
        rw [h1]
        simp
        omega
      · rw [if_neg hd]
        split
        · exact absurd ‹args r = none›
            (hsome r (List.mem_cons_self r rest))
        · split
          · obtain ⟨h1, h2⟩ := ih _ ⟨t, su + 1, fa, er, im + 1⟩ htail
            refine ⟨?_, h2⟩
            rw [h1]
            simp
            omega
          · obtain ⟨h1, h2⟩ := ih _ ⟨t, su, fa + 1, er ++ [_], im⟩ htail
            refine ⟨?_, h2⟩
            rw [h1]
            simp
            omega

/-- A record on which the attribute accesses raise aborts the loop outside
dry-run: whatever happened before it, the report is the file-error shape. -/
theorem runRecordsGo_abort {α : Type} (ioErr : String → Bool) (ts : String)
    (args : α → Option WriteArgs) :
    ∀ (pre : List α) (x : α) (rest : List α), args x = none →
      ∀ (fs : FS) (acc : ImportResult),
        (runRecordsGo ioErr ts false args (pre ++ x :: rest) fs acc).1 =
          fileErrorResult attributeErrorMsg := by
  intro pre
  induction pre with
  | nil =>
    intro x rest hx fs acc
    simp only [List.nil_append, runRecordsGo]
    rw [if_neg (by simp), hx]
  | cons r pre2 ih =>
    intro x rest hx fs acc
    simp only [List.cons_append, runRecordsGo]
    rw [if_neg (by simp)]
    split
    · rfl
    · split
      · exact ih x rest hx _ _
      · exact ih x rest hx _ _

theorem runRecordsGo_dry {α : Type} (ioErr : String → Bool) (ts : String)
    (args : α → Option WriteArgs) :
    ∀ (recs : List α) (fs : FS) (acc : ImportResult),
      runRecordsGo ioErr ts true args recs fs acc =
        ({ acc with success := acc.success + recs.length,
                    imported := acc.imported + recs.length }, fs) := by
  intro recs
  induction recs with
  | nil =>
    intro fs acc
    simp [runRecordsGo]
  | cons r rest ih =>
    intro fs acc
    cases acc with
    | mk t su fa er im =>
      simp only [runRecordsGo, if_pos rfl]
      rw [ih]
      have h1 : su + 1 + rest.length = su + (rest.length + 1) := by omega
      have h2 : im + 1 + rest.length = im + (rest.length + 1) := by omega
      simp [h1, h2]

theorem string_append_left_cancel {s a b : String} (h : s ++ a = s ++ b) :
    a = b := by
  have hd := congrArg String.data h
  simp only [String.data_append] at hd
  have h2 := List.append_cancel_left hd
  cases a
  cases b
  exact congrArg String.mk h2

/-! ## Claim C7 -/

/-- C7: importing with `dry_run=true` leaves the bookmark tree unchanged and
reports `success = total`, for each of the four importers on any input whose
file decodes — even for JSON elements / Pocket mapping values that are not
dicts, since the dry-run branch never touches a record's attributes. -/
theorem claim_C7_dry_run_frame (ioErr : String → Bool) (ts : String) (fs : FS)
    (lines : List HtmlLine) (items : List JsonItem) (rows : List JsonRec)
    (pitems : List (String × PocketVal)) :
    ((import_html_bookmarks ioErr ts (.ok lines) true fs).2 = fs ∧
      (import_html_bookmarks ioErr ts (.ok lines) true fs).1.success =
        (import_html_bookmarks ioErr ts (.ok lines) true fs).1.total) ∧
    ((import_json_bookmarks ioErr ts (.ok items) true fs).2 = fs ∧
      (import_json_bookmarks ioErr ts (.ok items) true fs).1.success =
        (import_json_bookmarks ioErr ts (.ok items) true fs).1.total) ∧
    ((import_csv_bookmarks ioErr ts (.ok rows) true fs).2 = fs ∧
      (import_csv_bookmarks ioErr ts (.ok rows) true fs).1.success =
        (import_csv_bookmarks ioErr ts (.ok rows) true fs).1.total) ∧
    ((import_pocket_export ioErr ts (.ok (PocketData.items pitems)) true fs).2
        = fs ∧
      (import_pocket_export ioErr ts (.ok (PocketData.items pitems)) true
          fs).1.success =
        (import_pocket_export ioErr ts (.ok (PocketData.items pitems)) true
          fs).1.total) := by
  refine ⟨⟨?_, ?_⟩, ⟨?_, ?_⟩, ⟨?_, ?_⟩, ⟨?_, ?_⟩⟩ <;>
    simp [import_html_bookmarks, import_json_bookmarks, import_csv_bookmarks,
      import_pocket_export, runRecords, runRecordsGo_dry]

/-! ## Claim C1 -/

/-- C1 counterexample: a per-format importer invocation on a file whose JSON
fails to decode (Python's `json.load` raising inside the `try`) returns
`total=0, success=0, failed=1`, violating `success + failed == total` even
though this is neither of the two `import_file` guard cases named by the
claim. -/
theorem claim_C1_counterexample :
    ¬ ((import_json_bookmarks (fun _ => false) "20240101_120000"
          (Except.error "Expecting value: line 1 column 1 (char 0)") false
          FS.empty).1.success +
        (import_json_bookmarks (fun _ => false) "20240101_120000"
          (Except.error "Expecting value: line 1 column 1 (char 0)") false
          FS.empty).1.failed =
        (import_json_bookmarks (fun _ => false) "20240101_120000"
          (Except.error "Expecting value: line 1 column 1 (char 0)") false
          FS.empty).1.total) := by decide

/-- C1 (amended): `success + failed = total` holds for every importer
invocation whose record loop completes — always for HTML and CSV once the
file opens and decodes, and for JSON and Pocket additionally requiring that
(outside dry-run) every iterated record is a dict (for Pocket: the export
decodes to a mapping whose materialized items are well-shaped); in dry-run
mode it holds for arbitrary decoded records, since their attributes are
never consulted.  Every file-level failure — an open/decode error, a
non-mapping Pocket export, or a per-record attribute error aborting the
loop mid-way — and `import_file`'s file-not-found and unsupported-format
guards return `total=0, success=0, failed=1` with exactly one error
entry. -/
theorem claim_C1_import_result_accounting (ioErr : String → Bool) (ts : String)
    (dryRun : Bool) (fs : FS) :
    (∀ lines, (import_html_bookmarks ioErr ts (.ok lines) dryRun fs).1.success +
      (import_html_bookmarks ioErr ts (.ok lines) dryRun fs).1.failed =
      (import_html_bookmarks ioErr ts (.ok lines) dryRun fs).1.total) ∧
    (∀ recs : List JsonRec,
      (import_json_bookmarks ioErr ts (.ok (recs.map JsonItem.dict)) dryRun
        fs).1.success +
      (import_json_bookmarks ioErr ts (.ok (recs.map JsonItem.dict)) dryRun
        fs).1.failed =
      (import_json_bookmarks ioErr ts (.ok (recs.map JsonItem.dict)) dryRun
        fs).1.total) ∧
    (∀ rows, (import_csv_bookmarks ioErr ts (.ok rows) dryRun fs).1.success +
      (import_csv_bookmarks ioErr ts (.ok rows) dryRun fs).1.failed =
      (import_csv_bookmarks ioErr ts (.ok rows) dryRun fs).1.total) ∧
    (∀ items : List (String × PocketItem),
      (import_pocket_export ioErr ts (.ok (PocketData.items
          (items.map (fun p => (p.1, PocketVal.item p.2))))) dryRun
        fs).1.success +
      (import_pocket_export ioErr ts (.ok (PocketData.items
          (items.map (fun p => (p.1, PocketVal.item p.2))))) dryRun
        fs).1.failed =
      (import_pocket_export ioErr ts (.ok (PocketData.items
          (items.map (fun p => (p.1, PocketVal.item p.2))))) dryRun
        fs).1.total) ∧
    (∀ items : List JsonItem,
      (import_json_bookmarks ioErr ts (.ok items) true fs).1.success +
      (import_json_bookmarks ioErr ts (.ok items) true fs).1.failed =
      (import_json_bookmarks ioErr ts (.ok items) true fs).1.total) ∧
    (∀ pitems : List (String × PocketVal),
      (import_pocket_export ioErr ts (.ok (PocketData.items pitems)) true
        fs).1.success +
      (import_pocket_export ioErr ts (.ok (PocketData.items pitems)) true
        fs).1.failed =
      (import_pocket_export ioErr ts (.ok (PocketData.items pitems)) true
        fs).1.total) ∧
    (∀ (pre rest : List JsonItem),
      (import_json_bookmarks ioErr ts
          (.ok (pre ++ JsonItem.nonDict :: rest)) false fs).1 =
        fileErrorResult attributeErrorMsg) ∧
    (∀ (pre rest : List (String × PocketVal)) (pid : String),
      (import_pocket_export ioErr ts
          (.ok (PocketData.items (pre ++ (pid, PocketVal.bad) :: rest)))
          false fs).1 =
        fileErrorResult attributeErrorMsg) ∧
    (∀ dr, (import_pocket_export ioErr ts (.ok PocketData.notMapping) dr
        fs).1 = fileErrorResult attributeErrorMsg) ∧
    (∀ e, (import_html_bookmarks ioErr ts (.error e) dryRun fs).1 =
      fileErrorResult e) ∧
    (∀ e, (import_json_bookmarks ioErr ts (.error e) dryRun fs).1 =
      fileErrorResult e) ∧
    (∀ e, (import_csv_bookmarks ioErr ts (.error e) dryRun fs).1 =
      fileErrorResult e) ∧
    (∀ e, (import_pocket_export ioErr ts (.error e) dryRun fs).1 =
      fileErrorResult e) ∧
    (∀ inp format, inp.present = false →
      (import_file ioErr ts inp format dryRun fs).1 =
        fileErrorResult "File not found") ∧
    (∀ inp format, inp.present = true →
      resolveFormat inp format ≠ "html" → resolveFormat inp format ≠ "json" →
      resolveFormat inp format ≠ "csv" → resolveFormat inp format ≠ "pocket" →
      (import_file ioErr ts inp format dryRun fs).1 =
        fileErrorResult ("Unsupported format: " ++ resolveFormat inp format)) ∧
    (∀ e, (fileErrorResult e).total = 0 ∧ (fileErrorResult e).success = 0 ∧
      (fileErrorResult e).failed = 1 ∧ (fileErrorResult e).errors.length = 1) := by
  have hcount : ∀ {α : Type} (dr : Bool) (args : α → Option WriteArgs)
      (recs : List α), (∀ r ∈ recs, args r ≠ none) →
      (runRecords ioErr ts dr args recs fs).1.success +
        (runRecords ioErr ts dr args recs fs).1.failed =
        (runRecords ioErr ts dr args recs fs).1.total := by
    intro α dr args recs hsome
    obtain ⟨h1, h2⟩ := runRecordsGo_counts ioErr ts dr args recs fs
      { total := recs.length, success := 0, failed := 0, errors := [],
        imported := 0 } hsome
    rw [runRecords, h1, h2]
    simp
  refine ⟨?_, ?_, ?_, ?_, ?_, ?_, ?_, ?_, fun dr => rfl,
    fun e => rfl, fun e => rfl, fun e => rfl, fun e => rfl,
    ?_, ?_, fun e => ⟨rfl, rfl, rfl, rfl⟩⟩
  · intro lines
    exact hcount dryRun _ _ (fun r _ => by simp)
  · intro recs
    refine hcount dryRun _ _ ?_
    intro r hr
    obtain ⟨r0, _, rfl⟩ := List.mem_map.mp hr
    simp [jsonItemArgs]
  · intro rows
    exact hcount dryRun _ _ (fun r _ => by simp)
  · intro items
    refine hcount dryRun _ _ ?_
    intro p hp
    obtain ⟨p0, _, rfl⟩ := List.mem_map.mp hp
    simp [pocketValArgs]
  · intro items
    simp [import_json_bookmarks, runRecords, runRecordsGo_dry]
  · intro pitems
    simp [import_pocket_export, runRecords, runRecordsGo_dry]
  · intro pre rest
    exact runRecordsGo_abort ioErr ts jsonItemArgs pre JsonItem.nonDict rest
      rfl fs _
  · intro pre rest pid
    exact runRecordsGo_abort ioErr ts pocketValArgs pre (pid, PocketVal.bad)
      rest rfl fs _
  · intro inp format h
    simp [import_file, h]
  · intro inp format h h1 h2 h3 h4
    simp [import_file, h, h1, h2, h3, h4]

/-- C1 witness: the amended theorem applied to a one-bookmark HTML import,
to a JSON file decoding to the non-dict list `[1, 2]` (report is the
file-error shape), and to a missing file; hypotheses discharged by
evaluation. -/
theorem claim_C1_witness :
    ((import_html_bookmarks (fun _ => false) "20240101_120000"
        (.ok [HtmlLine.bookmark "https://x" "X" "" "" ""]) false FS.empty).1.success +
      (import_html_bookmarks (fun _ => false) "20240101_120000"
        (.ok [HtmlLine.bookmark "https://x" "X" "" "" ""]) false FS.empty).1.failed =
      (import_html_bookmarks (fun _ => false) "20240101_120000"
        (.ok [HtmlLine.bookmark "https://x" "X" "" "" ""]) false FS.empty).1.total) ∧
    ((import_json_bookmarks (fun _ => false) "20240101_120000"
        (.ok [JsonItem.nonDict, JsonItem.nonDict]) false FS.empty).1 =
      fileErrorResult attributeErrorMsg) ∧
    (import_file (fun _ => false) "20240101_120000"
        ⟨false, "json", .ok [], .ok [], .ok [], .ok (PocketData.items [])⟩
        none false FS.empty).1 =
      fileErrorResult "File not found" := by
  have h := claim_C1_import_result_accounting (fun _ => false) "20240101_120000"
    false FS.empty
  refine ⟨h.1 [HtmlLine.bookmark "https://x" "X" "" "" ""], ?_, ?_⟩
  · exact h.2.2.2.2.2.2.1 [] [JsonItem.nonDict]
  · exact h.2.2.2.2.2.2.2.2.2.2.2.2.2.1
      ⟨false, "json", .ok [], .ok [], .ok [], .ok (PocketData.items [])⟩ none rfl

/-! ## Claim C5 -/

/-- C5: writing twice with the same title and category produces two distinct
files; the second file's name is the slug stem with `_YYYYMMDD_HHMMSS`
appended (15 characters, digits except the underscore at index 8); a third
write colliding with both is not retried further — it succeeds and targets
the same suffixed name again (an overwrite, not a crash). -/
theorem claim_C5_collision_timestamp_suffix
    (fs₀ : FS) (title : Option String) (uri category tags ad lm ts : String)
    (y mo d h mi s : Nat) (hts : ts = fmtTimestamp y mo d h mi s)
    (h₀ : fs₀.fileExists (cbfDir category) (cbfStem title ++ ".md") = false)
    (p₁ p₂ p₃ : WriteResult × FS)
    (h₁ : p₁ = create_bookmark_file (fun _ => false) fs₀ ts title uri category tags ad lm)
    (h₂ : p₂ = create_bookmark_file (fun _ => false) p₁.2 ts title uri category tags ad lm)
    (h₃ : p₃ = create_bookmark_file (fun _ => false) p₂.2 ts title uri category tags ad lm) :
    p₁.1.success = true ∧ p₂.1.success = true ∧ p₃.1.success = true ∧
    p₁.1.filename = cbfDir category ++ "/" ++ (cbfStem title ++ ".md") ∧
    p₂.1.filename = cbfDir category ++ "/" ++ (cbfStem title ++ "_" ++ ts ++ ".md") ∧
    p₁.1.filename ≠ p₂.1.filename ∧
    p₂.2.fileExists (cbfDir category) (cbfStem title ++ ".md") = true ∧
    p₂.2.fileExists (cbfDir category) (cbfStem title ++ "_" ++ ts ++ ".md") = true ∧
    tsShaped ts = true ∧
    p₃.1.filename = p₂.1.filename := by
  have hlen : ts.length = 15 := by rw [hts]; rfl
  have hshape : tsShaped ts = true := by
    rw [hts]
    exact tsShaped_fmtTimestamp y mo d h mi s
  have hne := stemMd_ne_suffixed (cbfStem title) ts hlen
  subst h₁
  have hf₁ : cbfFname fs₀ ts title category = cbfStem title ++ ".md" := by
    unfold cbfFname
    rw [h₀]
    simp
  subst h₂
  subst h₃
  simp only [create_ok, hf₁]
  have hf₂ : cbfFname (fs₀.write (cbfDir category) (cbfStem title ++ ".md")
      (cbfContent (cbfTitle title) (cbfOpt uri "") (cbfOpt tags "") ad lm))
      ts title category = cbfStem title ++ "_" ++ ts ++ ".md" := by
    unfold cbfFname
    rw [fileExists_write_self]
    simp
  simp only [hf₂]
  have hf₃ : cbfFname ((fs₀.write (cbfDir category) (cbfStem title ++ ".md")
        (cbfContent (cbfTitle title) (cbfOpt uri "") (cbfOpt tags "") ad lm)).write
        (cbfDir category) (cbfStem title ++ "_" ++ ts ++ ".md")
        (cbfContent (cbfTitle title) (cbfOpt uri "") (cbfOpt tags "") ad lm))
      ts title category = cbfStem title ++ "_" ++ ts ++ ".md" := by
    unfold cbfFname
    rw [fileExists_write_other _ _ _ _ _ hne, fileExists_write_self]
    simp
  simp only [hf₃]
  refine ⟨trivial, trivial, trivial, trivial, trivial, ?_, ?_, ?_, hshape, trivial⟩
  · intro hcon
    exact hne (string_append_left_cancel hcon)
  · rw [fileExists_write_other _ _ _ _ _ hne, fileExists_write_self]
  · rw [fileExists_write_self]

/-- C5 witness: the theorem applied at a concrete double and triple write of
`title="Test", category="test"` starting from the empty tree. -/
theorem claim_C5_witness :
    (create_bookmark_file (fun _ => false) FS.empty (fmtTimestamp 2024 1 2 3 4 5)
        (some "Test") "https://e" "test" "" "" "").1.filename ≠
      (create_bookmark_file (fun _ => false)
        (create_bookmark_file (fun _ => false) FS.empty
          (fmtTimestamp 2024 1 2 3 4 5) (some "Test") "https://e" "test" "" "" "").2
        (fmtTimestamp 2024 1 2 3 4 5) (some "Test") "https://e" "test" "" "" "").1.filename ∧
    tsShaped (fmtTimestamp 2024 1 2 3 4 5) = true := by
  have h := claim_C5_collision_timestamp_suffix FS.empty (some "Test")
    "https://e" "test" "" "" "" (fmtTimestamp 2024 1 2 3 4 5) 2024 1 2 3 4 5 rfl
    (by decide) _ _ _ rfl rfl rfl
  exact ⟨h.2.2.2.2.2.1, h.2.2.2.2.2.2.2.2.1⟩

/-! ## Claim C6 -/

/-- C6 counterexample: a record with an empty `uri` is materialized all the
same — the call succeeds, the stored and returned `uri` is empty, and the
file exists on disk afterwards — refuting the claim that a materialized
record's `uri` field is never empty. -/
theorem claim_C6_counterexample :
    ((create_bookmark_file (fun _ => false) FS.empty "20240101_120000"
        (some "T") "" "" "" "" "").1.success = true) ∧
    ((create_bookmark_file (fun _ => false) FS.empty "20240101_120000"
        (some "T") "" "" "" "" "").1.uri = "") ∧
    ((create_bookmark_file (fun _ => false) FS.empty "20240101_120000"
        (some "T") "" "" "" "" "").2.fileExists "unsorted" "t.md" = true) := by
  decide

/-- C6 (amended): on a healthy filesystem the import-path writer
materializes every record — whatever its `uri` and category — the stored
`uri` equals the stripped source `uri` and may be empty; and the category
defaults to `"unsorted"` whenever the source record carried none. -/
theorem claim_C6_materialization_fields (fs : FS) (ts : String)
    (title : Option String) (uri category tags ad lm : String) :
    ((create_bookmark_file (fun _ => false) fs ts title uri category tags ad
      lm).1.success = true) ∧
    ((create_bookmark_file (fun _ => false) fs ts title uri category tags ad
      lm).1.uri = cbfOpt uri "") ∧
    ((create_bookmark_file (fun _ => false) fs ts title uri category tags ad
      lm).2.fileExists (cbfDir category) (cbfFname fs ts title category)
      = true) ∧
    ((create_bookmark_file (fun _ => false) fs ts title uri "" tags ad
      lm).1.category = "unsorted") := by
  refine ⟨rfl, rfl, ?_, rfl⟩
  exact fileExists_write_self fs (cbfDir category)
    (cbfFname fs ts title category) _

/-! ## Claim C9 -/

/-- C9 counterexample: a whitespace-only title is truthy in Python, so it is
stripped to the empty string instead of being replaced by `"Untitled"`: the
returned record's title is `""`, not `"Untitled"`. -/
theorem claim_C9_counterexample :
    ((create_bookmark_file (fun _ => false) FS.empty "20240101_120000"
        (some " ") "" "" "" "" "").1.title = "") ∧
    ¬ ((create_bookmark_file (fun _ => false) FS.empty "20240101_120000"
        (some " ") "" "" "" "" "").1.title = "Untitled") := by
  decide

/-- C9 (amended): a `None` or empty title yields `"Untitled"`; a non-empty
whitespace-only title is stripped to the empty string (not `"Untitled"`);
the call does not fail in either case. -/
theorem claim_C9_title_defaults (ioErr : String → Bool) (fs : FS) (ts : String)
    (uri category tags ad lm : String) :
    ((create_bookmark_file ioErr fs ts none uri category tags ad lm).1.title
      = "Untitled") ∧
    ((create_bookmark_file ioErr fs ts (some "") uri category tags ad lm).1.title
      = "Untitled") ∧
    (∀ t : String, t ≠ "" → pyStrip t = "" →
      (create_bookmark_file ioErr fs ts (some t) uri category tags ad lm).1.title
        = "") ∧
    ((create_bookmark_file (fun _ => false) fs ts (some "   ") uri category tags
        ad lm).1.success = true) := by
  refine ⟨?_, ?_, ?_, rfl⟩
  · rw [create_title]
    rfl
  · rw [create_title]
    rfl
  · intro t h1 h2
    rw [create_title]
    simp only [cbfTitle]
    rw [if_neg h1]
    exact h2

/-- C9 witness: the amended theorem applied at a `None` title and at the
whitespace-only title `"  "`, hypotheses discharged by evaluation. -/
theorem claim_C9_witness :
    (create_bookmark_file (fun _ => false) FS.empty "20240101_120000"
        none "" "" "" "" "").1.title = "Untitled" ∧
    (create_bookmark_file (fun _ => false) FS.empty "20240101_120000"
        (some "  ") "" "" "" "" "").1.title = "" :=
  ⟨(claim_C9_title_defaults (fun _ => false) FS.empty "20240101_120000"
      "" "" "" "" "").1,
   (claim_C9_title_defaults (fun _ => false) FS.empty "20240101_120000"
      "" "" "" "" "").2.2.1 "  " (by decide) (by decide)⟩

/-! ## Claim C8 -/

/-- C8 counterexample: after the import-path Writer creates
`title="Test", uri="https://example.com", category="test"` (no tags), the
file's metadata block reads `tags: []`, so the search hit carries an empty
tag list — `"test"` is not among its tags, refuting the claim's
`tags`-containment clause. -/
theorem claim_C8_counterexample :
    (search_bookmarks (create_bookmark_file (fun _ => false) FS.empty
        "20240101_120000" (some "Test") "https://example.com" "test" "" "" "").2
        "test" 20).map SearchResult.tags = [[]] := by decide

/-- C8 (amended): a bookmark created via the import-path Writer with
`title="Test", uri="https://example.com", category="test"` is found both by
`search("test")` and by `search("example.com")`, with `category = "test"`;
its tag list is empty, because the Writer stores `tags: []` when no tags are
given (it does not add the category to the tags). -/
theorem claim_C8_roundtrip_search :
    search_bookmarks (create_bookmark_file (fun _ => false) FS.empty
        "20240101_120000" (some "Test") "https://example.com" "test" "" "" "").2
        "test" 20 =
      [{ id := "test/test.md", url := "https://example.com", title := "Test",
         tags := [], category := "test" }] ∧
    search_bookmarks (create_bookmark_file (fun _ => false) FS.empty
        "20240101_120000" (some "Test") "https://example.com" "test" "" "" "").2
        "example.com" 20 =
      [{ id := "test/test.md", url := "https://example.com", title := "Test",
         tags := [], category := "test" }] := by
  exact ⟨by decide, by decide⟩

/-! ## Claim C10 -/

theorem splitCommaL_no_comma {a : List Char} (h : ',' ∉ a) :
    splitCommaL a = [a] := by
  induction a with
  | nil => rfl
  | cons c rest ih =>
    simp only [List.mem_cons, not_or] at h
    simp only [splitCommaL]
    rw [if_neg (fun hc => h.1 hc.symm), ih h.2]

theorem splitCommaL_append {a : List Char} (b : List Char) (h : ',' ∉ a) :
    splitCommaL (a ++ ',' :: b) = a :: splitCommaL b := by
  induction a with
  | nil =>
    show splitCommaL (',' :: b) = [] :: splitCommaL b
    simp [splitCommaL]
  | cons c rest ih =>
    simp only [List.mem_cons, not_or] at h
    show splitCommaL (c :: (rest ++ ',' :: b)) = (c :: rest) :: splitCommaL b
    simp only [splitCommaL]
    rw [if_neg (fun hc => h.1 hc.symm), ih h.2]

theorem slugifyM_no_comma (fold : List Char → List Char) (s : String) :
    ',' ∉ (slugifyM fold s).data := by
  intro hmem
  by_cases hs : s = ""
  · simp [hs, slugifyM] at hmem
  · rw [slugifyM, if_neg hs] at hmem
    have hall := slugifyMCore_all fold s.data
    have := List.all_eq_true.mp hall ',' hmem
    simp [isSlugChar, isLowerAlnum] at this

/-- C10: every bookmark successfully created through the manual
`create_bookmark` path stores a tag string whose comma-separated list starts
with the slugified category: the stored tags equal the category alone when
no tags are given, and the category followed by the given tags otherwise. -/
theorem claim_C10_tags_include_category (env : ManagerEnv)
    (title uri category tags name : String) (force : Bool)
    (fn ti ur cat atags content : String)
    (h : create_bookmark env title uri category tags name force =
      CBResult.ok fn ti ur cat atags content) :
    (tags = "" → atags = cat) ∧
    (tags ≠ "" → atags = cat ++ "," ++ tags) ∧
    (splitCommaL atags.data).head? = some cat.data := by
  unfold create_bookmark at h
  split at h
  · cases h
  · split at h
    · cases h
    · split at h
      · cases h
      · split at h
        · cases h
        · split at h
          · cases h
          · injection h with h1 h2 h3 h4 h5 h6
            subst h4
            subst h5
            have hnc : ',' ∉ (slugifyM env.fold
                (cbCategory (cbUri env uri) category)).data :=
              slugifyM_no_comma env.fold _
            unfold cbAllTags
            by_cases ht : tags = ""
            · rw [if_neg (fun hcon => hcon ht)]
              refine ⟨fun _ => rfl, fun hcon => absurd ht hcon, ?_⟩
              rw [splitCommaL_no_comma hnc]
              rfl
            · rw [if_pos ht]
              refine ⟨fun hcon => absurd hcon ht, fun _ => rfl, ?_⟩
              have hdata : (slugifyM env.fold (cbCategory (cbUri env uri)
                    category) ++ "," ++ tags).data =
                  (slugifyM env.fold (cbCategory (cbUri env uri)
                    category)).data ++ ',' :: tags.data := by
                simp [String.data_append]
              rw [hdata, splitCommaL_append _ hnc]
              rfl

/-- C10 witness: the theorem applied to a concrete successful creation
(`category="Dev Tools"`, `tags="x,y"`) in an environment where the URI is
reachable and the target file absent; the success hypothesis holds by
evaluation and the stored tags are `dev-tools,x,y`. -/
theorem claim_C10_witness :
    (splitCommaL ("dev-tools,x,y".data)).head? = some ("dev-tools".data) := by
  have h := claim_C10_tags_include_category
    (ManagerEnv.mk (fun l => l) "/w" (fun s => s) (fun s => s)
      (fun _ => true) (fun s => s) (fun _ => "") (fun _ => false))
    "T" "https://example.com/p" "Dev Tools" "x,y" "" false
    "dev-tools/t.md" "T" "https://example.com/p" "dev-tools" "dev-tools,x,y"
    ("---\ntitle: T\nuri: https://example.com/p\ntags: [dev-tools,x,y]\n---\n[T](https://example.com/p)\n")
    (by decide)
  exact h.2.2
